import Mathlib

/-!
Verification of the pg_qos resource governor (shallow embedding).

Each C function relevant to the frozen claims is translated into a Lean
definition of the same name.  Strings are modelled as `List Char`; machine
integers as `Int` with the 64-bit range made explicit where the C code
checks it; PostgreSQL `ereport(ERROR, ...)` calls become error values in
the result type of the translated function.  Oids, pids and command ids
are modelled as `Nat` (with 0 playing the role of `InvalidOid` / empty
pid slot).
-/

namespace PgQos

/-! ## Character classification (ASCII, as in C's ctype.h) -/

/-- C `isspace` on ASCII input: space, \t, \n, \v, \f, \r. -/
def qos_isspace (c : Char) : Bool :=
  c = ' ' || c = '\t' || c = '\n' || c = '\x0b' || c = '\x0c' || c = '\r'

/-- C `isdigit` on ASCII input. -/
def qos_isdigit (c : Char) : Bool :=
  '0' ≤ c && c ≤ '9'

/-- C `isalpha` on ASCII input. -/
def qos_isalpha (c : Char) : Bool :=
  ('a' ≤ c && c ≤ 'z') || ('A' ≤ c && c ≤ 'Z')

/-- C `tolower` on ASCII input. -/
def qos_tolower (c : Char) : Char :=
  if 'A' ≤ c ∧ c ≤ 'Z' then Char.ofNat (c.toNat + 32) else c

/-- `pg_strcasecmp(a, b) == 0`: ASCII case-insensitive string equality. -/
def caseEq (a b : List Char) : Bool :=
  a.map qos_tolower == b.map qos_tolower

/-- `pg_strncasecmp(name, "qos.", 4) == 0`: case-insensitive prefix test. -/
def qosPrefix (name : List Char) : Bool :=
  (name.take 4).map qos_tolower == "qos.".toList

/-- `qos_trim_whitespace`: strips leading and trailing whitespace. -/
def qos_trim_whitespace (s : List Char) : List Char :=
  (((s.dropWhile qos_isspace).reverse).dropWhile qos_isspace).reverse

/-- `strchr(s, '=')` based split: the text before the first `=` and after it. -/
def splitAtFirstEq : List Char → Option (List Char × List Char)
  | [] => none
  | c :: rest =>
    if c = '=' then some ([], rest)
    else match splitAtFirstEq rest with
      | some (n, v) => some (c :: n, v)
      | none => none

/-! ## Numeric literal parsing -/

/-- Value of a (non-empty) list of decimal digit characters. -/
def digitsToNat (ds : List Char) : Nat :=
  ds.foldl (fun acc c => acc * 10 + (c.toNat - '0'.toNat)) 0

def INT64_MAX : Int := 9223372036854775807

def INT64_MIN : Int := -9223372036854775808

def INT_MAX : Int := 2147483647

/-- Digit-run consumption shared by the `strtoll`/`strtol` models: reads the
leading run of decimal digits of `l2` (already past whitespace and sign) and
returns the signed value together with the unconsumed tail; `none` when no
digit was consumed or the value is outside the signed 64-bit range. -/
def strtoll64Core (neg : Bool) (l2 : List Char) : Option (Int × List Char) :=
  if (l2.takeWhile qos_isdigit).isEmpty then none
  else
    let v : Int := if neg then -(digitsToNat (l2.takeWhile qos_isdigit) : Int)
                   else (digitsToNat (l2.takeWhile qos_isdigit) : Int)
    if v < INT64_MIN ∨ INT64_MAX < v then none
    else some (v, l2.dropWhile qos_isdigit)

/-- `strtoll(str, &endptr, 10)` with the caller's `endptr == str` and
`errno == ERANGE` failure conditions folded in: skips leading whitespace,
reads an optional sign and a run of decimal digits, and returns the value
together with the unconsumed tail.  `none` when no digits were consumed or
the value is outside the signed 64-bit range. -/
def strtoll64 (l : List Char) : Option (Int × List Char) :=
  if (l.dropWhile qos_isspace).head? = some '-' then
    strtoll64Core true (l.dropWhile qos_isspace).tail
  else if (l.dropWhile qos_isspace).head? = some '+' then
    strtoll64Core false (l.dropWhile qos_isspace).tail
  else
    strtoll64Core false (l.dropWhile qos_isspace)

/-- `strtol` as used by `qos_parse_memory_unit`, which ignores `errno` and
never compares `endptr` with the start: no digits consumed yields value 0
with the whole input as tail, and out-of-range values are clamped the way
glibc clamps (`LONG_MAX`/`LONG_MIN` on LP64). -/
def strtolRawCore (neg : Bool) (whole l2 : List Char) : Int × List Char :=
  let ds := l2.takeWhile qos_isdigit
  let rest := l2.dropWhile qos_isdigit
  if ds.isEmpty then (0, whole)
  else
    let v : Int := if neg then -(digitsToNat ds : Int) else (digitsToNat ds : Int)
    if v < INT64_MIN then (INT64_MIN, rest)
    else if INT64_MAX < v then (INT64_MAX, rest)
    else (v, rest)

def strtolRaw (l : List Char) : Int × List Char :=
  if (l.dropWhile qos_isspace).head? = some '-' then
    strtolRawCore true l (l.dropWhile qos_isspace).tail
  else if (l.dropWhile qos_isspace).head? = some '+' then
    strtolRawCore false l (l.dropWhile qos_isspace).tail
  else
    strtolRawCore false l (l.dropWhile qos_isspace)

/-- The multiplier selected by the suffix comparison chain of
`qos_parse_memory_value` (`src/qos.c:333-343`): empty suffix means
multiplier 1, otherwise one of the six case-insensitive unit spellings. -/
def suffixMult (suffix : List Char) : Option Int :=
  if suffix.isEmpty then some 1
  else if caseEq suffix "kb".toList || caseEq suffix "k".toList then some 1024
  else if caseEq suffix "mb".toList || caseEq suffix "m".toList then some (1024 * 1024)
  else if caseEq suffix "gb".toList || caseEq suffix "g".toList then some (1024 * 1024 * 1024)
  else none

/-- The second half of `qos_parse_memory_value`: the checks performed once
the base value and the (whitespace-stripped) suffix are in hand. -/
def memValueChecks (base : Int) (suffix : List Char) : Option Int :=
  (suffixMult suffix).bind fun mult =>
    if base = -1 ∧ ¬suffix.isEmpty then none
    else if base < -1 then none
    else if 0 < base ∧ 1 < mult ∧ INT64_MAX / mult < base then none
    else some (base * mult)

/-- `qos_parse_memory_value` (`src/qos.c:312-369`): parse a memory literal
into a byte count.  `none` models both the strict-mode `ereport(ERROR)` and
the non-strict `return false`. -/
def qos_parse_memory_value (value : List Char) : Option Int :=
  if value.isEmpty then none
  else match strtoll64 value with
    | none => none
    | some (base, rest) => memValueChecks base (rest.dropWhile qos_isspace)

/-- `qos_parse_memory_unit` (`src/qos.c:983-1000`): the loose parser used on
the `SET work_mem` string argument.  No error reporting: unknown suffixes
and unparsable text fall through, and there is no overflow check on the
multiplication. -/
def qos_parse_memory_unit (str : List Char) : Int :=
  let (value, endp) := strtolRaw str
  if endp.isEmpty then value
  else if caseEq endp "kb".toList || caseEq endp "k".toList then value * 1024
  else if caseEq endp "mb".toList || caseEq endp "m".toList then value * (1024 * 1024)
  else if caseEq endp "gb".toList || caseEq endp "g".toList then value * (1024 * 1024 * 1024)
  else value

/-- `qos_parse_int32_value` (`src/qos.c:272-310`): parse a 32-bit limit.
`none` models parse failure (strict `ereport` and non-strict `return false`
alike).  The C `long` is 64-bit on the target platform, so range failure of
`strtol` is the 64-bit range check inside `strtoll64`. -/
def qos_parse_int32_value (value : List Char) (minValue maxValue : Int)
    (allowNegativeOne : Bool) : Option Int :=
  if value.isEmpty then none
  else match strtoll64 value with
    | none => none
    | some (v, rest) =>
      if ¬rest.isEmpty then none
      else if allowNegativeOne ∧ v = -1 then some (-1)
      else if v < minValue ∨ maxValue < v then none
      else some v

/-- `qos_parse_work_mem_error_level` (`src/qos.c:371-389`): accepts
`warning` or `error`, case-insensitively. -/
def qos_parse_work_mem_error_level (value : List Char) : Bool :=
  if value.isEmpty then false
  else caseEq value "warning".toList || caseEq value "error".toList

/-! ## The limits struct and `apply_value` -/

/-- `QoSLimits` (`src/qos.h:28-40`).  Every field uses `-1` as the unset
sentinel. -/
structure QoSLimits where
  work_mem_limit : Int
  cpu_core_limit : Int
  max_concurrent_tx : Int
  max_concurrent_select : Int
  max_concurrent_update : Int
  max_concurrent_delete : Int
  max_concurrent_insert : Int
  work_mem_error_level : Int
deriving DecidableEq, Repr

/-- A fully unset limits struct, as initialized at the top of
`qos_get_role_limits` / `qos_get_database_limits`. -/
def allUnsetLimits : QoSLimits :=
  ⟨-1, -1, -1, -1, -1, -1, -1, -1⟩

def QOS_WORK_MEM_ERROR_WARNING : Int := 0

def QOS_WORK_MEM_ERROR_ERROR : Int := 1

/-- `qos_is_valid_qos_param_name_internal` (`src/qos.c:391-417`). -/
def qos_is_valid_qos_param_name (name : List Char) : Bool :=
  name == "qos.work_mem_limit".toList ||
  name == "qos.cpu_core_limit".toList ||
  name == "qos.max_concurrent_tx".toList ||
  name == "qos.max_concurrent_select".toList ||
  name == "qos.max_concurrent_update".toList ||
  name == "qos.max_concurrent_delete".toList ||
  name == "qos.max_concurrent_insert".toList ||
  name == "qos.enabled".toList ||
  name == "qos.work_mem_error_level".toList

/-- Result of `qos_apply_qos_param_value`: `ok limits ret` carries the
(possibly `NULL` = `none`) limits pointer target after the call and the C
`bool` return; `err` models the strict-mode `ereport(ERROR)`. -/
inductive ApplyResult where
  | ok (limits : Option QoSLimits) (ret : Bool)
  | err
deriving DecidableEq, Repr

/-- Body of `qos_apply_qos_param_value` once the name is known non-`NULL`. -/
def qos_apply_qos_param_value_named (limits : Option QoSLimits)
    (nm : List Char) (value : Option (List Char))
    (strict : Bool) : ApplyResult :=
    if ¬qosPrefix nm then .ok limits false
    else if ¬qos_is_valid_qos_param_name nm then
      (if strict then .err else .ok limits false)
    else if nm = "qos.enabled".toList then .ok limits true
    else match value with
    | none => if strict then .err else .ok limits false
    | some v =>
      let tv := qos_trim_whitespace v
      if nm = "qos.work_mem_limit".toList then
        match qos_parse_memory_value tv with
        | none => if strict then .err else .ok limits false
        | some m => .ok (limits.map fun L => { L with work_mem_limit := m }) true
      else if nm = "qos.cpu_core_limit".toList then
        match qos_parse_int32_value tv 0 INT_MAX true with
        | none => if strict then .err else .ok limits false
        | some k => .ok (limits.map fun L => { L with cpu_core_limit := k }) true
      else if nm = "qos.max_concurrent_tx".toList then
        match qos_parse_int32_value tv 0 INT_MAX true with
        | none => if strict then .err else .ok limits false
        | some k => .ok (limits.map fun L => { L with max_concurrent_tx := k }) true
      else if nm = "qos.max_concurrent_select".toList then
        match qos_parse_int32_value tv 0 INT_MAX true with
        | none => if strict then .err else .ok limits false
        | some k => .ok (limits.map fun L => { L with max_concurrent_select := k }) true
      else if nm = "qos.max_concurrent_update".toList then
        match qos_parse_int32_value tv 0 INT_MAX true with
        | none => if strict then .err else .ok limits false
        | some k => .ok (limits.map fun L => { L with max_concurrent_update := k }) true
      else if nm = "qos.max_concurrent_delete".toList then
        match qos_parse_int32_value tv 0 INT_MAX true with
        | none => if strict then .err else .ok limits false
        | some k => .ok (limits.map fun L => { L with max_concurrent_delete := k }) true
      else if nm = "qos.max_concurrent_insert".toList then
        match qos_parse_int32_value tv 0 INT_MAX true with
        | none => if strict then .err else .ok limits false
        | some k => .ok (limits.map fun L => { L with max_concurrent_insert := k }) true
      else if nm = "qos.work_mem_error_level".toList then
        if qos_parse_work_mem_error_level tv then
          .ok (limits.map fun L =>
            { L with work_mem_error_level :=
                if caseEq tv "error".toList then QOS_WORK_MEM_ERROR_ERROR
                else QOS_WORK_MEM_ERROR_WARNING }) true
        else if strict then .err else .ok limits false
      else .ok limits false

/-- `qos_apply_qos_param_value` (`src/qos.c:425-576`).  `limits` is the
nullable out-pointer, `name`/`value` the nullable C strings. -/
def qos_apply_qos_param_value (limits : Option QoSLimits)
    (name : Option (List Char)) (value : Option (List Char))
    (strict : Bool) : ApplyResult :=
  match name with
  | none => .ok limits false
  | some nm => qos_apply_qos_param_value_named limits nm value strict

/-! ## The session-local effective-limit cache (`src/hooks_cache.c`) -/

/-- The `CALC_LIMIT` macro of `qos_refresh_cached_limits`
(`src/hooks_cache.c:135-143`): most-restrictive fold of a role-scoped and a
database-scoped value, with `-1` as the unset sentinel. -/
def calc_limit (r d : Int) : Int :=
  if 0 ≤ r ∧ 0 ≤ d then min r d
  else if 0 ≤ r then r
  else if 0 ≤ d then d
  else -1

/-- The session-local cache statics of `src/hooks_cache.c:28-33`. -/
structure SessionCache where
  cached_limits : QoSLimits
  cached_user_id : Nat
  cached_db_id : Nat
  limits_cached : Bool
  last_seen_epoch : Int
deriving DecidableEq, Repr

/-- The C initializer `{-1, -1, -1, -1, -1, -1, -1}` supplies only seven of
the eight `QoSLimits` fields, so `work_mem_error_level` starts
zero-initialized (0 = warning), not `-1`. -/
def initialSessionCache : SessionCache :=
  { cached_limits := ⟨-1, -1, -1, -1, -1, -1, -1, 0⟩
    cached_user_id := 0
    cached_db_id := 0
    limits_cached := false
    last_seen_epoch := -1 }

/-- The epoch comparison at the top of `qos_refresh_cached_limits`
(`src/hooks_cache.c:117-124`): a shared-epoch mismatch forces invalidation
and adopts the new epoch.  `none` models `qos_shared_state == NULL`. -/
def qos_refresh_epoch_check (c : SessionCache) (sharedEpoch : Option Int) :
    SessionCache :=
  match sharedEpoch with
  | some ep =>
    if c.last_seen_epoch ≠ ep then
      { c with limits_cached := false, last_seen_epoch := ep }
    else c
  | none => c

/-- The recomputation half of `qos_refresh_cached_limits`
(`src/hooks_cache.c:130-158`): queries the catalogs (results passed in as
`role_limits` / `db_limits`) and folds the seven integer limit fields with
`CALC_LIMIT`.  `work_mem_error_level` is not among the folded fields: it
keeps whatever value the cache previously held. -/
def qos_refresh_recompute (c : SessionCache) (u d : Nat)
    (role_limits db_limits : QoSLimits) : SessionCache :=
  { cached_limits :=
      { work_mem_limit :=
          calc_limit role_limits.work_mem_limit db_limits.work_mem_limit
        cpu_core_limit :=
          calc_limit role_limits.cpu_core_limit db_limits.cpu_core_limit
        max_concurrent_tx :=
          calc_limit role_limits.max_concurrent_tx db_limits.max_concurrent_tx
        max_concurrent_select :=
          calc_limit role_limits.max_concurrent_select db_limits.max_concurrent_select
        max_concurrent_update :=
          calc_limit role_limits.max_concurrent_update db_limits.max_concurrent_update
        max_concurrent_delete :=
          calc_limit role_limits.max_concurrent_delete db_limits.max_concurrent_delete
        max_concurrent_insert :=
          calc_limit role_limits.max_concurrent_insert db_limits.max_concurrent_insert
        work_mem_error_level := c.cached_limits.work_mem_error_level }
    cached_user_id := u
    cached_db_id := d
    limits_cached := true
    last_seen_epoch := c.last_seen_epoch }

/-- `qos_refresh_cached_limits` (`src/hooks_cache.c:106-166`). -/
def qos_refresh_cached_limits (c : SessionCache) (sharedEpoch : Option Int)
    (u d : Nat) (role_limits db_limits : QoSLimits) : SessionCache :=
  if (qos_refresh_epoch_check c sharedEpoch).limits_cached ∧
     (qos_refresh_epoch_check c sharedEpoch).cached_user_id = u ∧
     (qos_refresh_epoch_check c sharedEpoch).cached_db_id = d then
    qos_refresh_epoch_check c sharedEpoch
  else
    qos_refresh_recompute (qos_refresh_epoch_check c sharedEpoch) u d
      role_limits db_limits

/-! ## The planner rewriter (`src/hooks_resource.c`) -/

/-- Plan nodes as seen by `qos_adjust_parallel_workers`: `NULL`, `Gather`,
`GatherMerge`, or any other node kind; each node carries its two child
plan pointers. -/
inductive Plan where
  | nullPlan : Plan
  | gather (num_workers : Int) (lefttree righttree : Plan)
  | gatherMerge (num_workers : Int) (lefttree righttree : Plan)
  | otherNode (lefttree righttree : Plan)
deriving DecidableEq, Repr

/-- `qos_adjust_parallel_workers` (`src/hooks_resource.c:106-138`):
clamp `num_workers` of every Gather / Gather Merge node to `max_workers`,
recursing into both children. -/
def qos_adjust_parallel_workers : Plan → Int → Plan
  | .nullPlan, _ => .nullPlan
  | .gather w l r, m =>
    .gather (if m < w then m else w)
      (qos_adjust_parallel_workers l m) (qos_adjust_parallel_workers r m)
  | .gatherMerge w l r, m =>
    .gatherMerge (if m < w then m else w)
      (qos_adjust_parallel_workers l m) (qos_adjust_parallel_workers r m)
  | .otherNode l r, m =>
    .otherNode (qos_adjust_parallel_workers l m) (qos_adjust_parallel_workers r m)

/-- The planned statement fields read by the planner hook. -/
structure PlannedStmt' where
  parallelModeNeeded : Bool
  planTree : Plan
  subplans : List Plan
deriving DecidableEq, Repr

/-- `new_max_workers` as computed in `qos_planner_hook`
(`src/hooks_resource.c:79`): `cpu_core_limit - 1` when the limit exceeds 1,
else 0. -/
def qos_new_max_workers (c : Int) : Int :=
  if 1 < c then c - 1 else 0

/-- The rewriting half of `qos_planner_hook` (`src/hooks_resource.c:72-98`),
applied to the planned statement produced by the host planner: when enabled
and `cpu_core_limit > 0`, the main plan tree is adjusted only if
`parallelModeNeeded` is set (and the tree is non-`NULL`), and every subplan
is adjusted unconditionally. -/
def qos_planner_rewrite (enabled : Bool) (limits : QoSLimits)
    (result : PlannedStmt') : PlannedStmt' :=
  if enabled ∧ 0 < limits.cpu_core_limit then
    { parallelModeNeeded := result.parallelModeNeeded
      planTree :=
        if result.parallelModeNeeded ∧ result.planTree ≠ .nullPlan then
          qos_adjust_parallel_workers result.planTree
            (qos_new_max_workers limits.cpu_core_limit)
        else result.planTree
      subplans := result.subplans.map fun sp =>
        qos_adjust_parallel_workers sp (qos_new_max_workers limits.cpu_core_limit) }
  else result

/-- Every Gather / Gather Merge node reachable through the child pointers
has `num_workers ≤ m`. -/
def gathersLE : Plan → Int → Bool
  | .nullPlan, _ => true
  | .gather w l r, m => decide (w ≤ m) && gathersLE l m && gathersLE r m
  | .gatherMerge w l r, m => decide (w ≤ m) && gathersLE l m && gathersLE r m
  | .otherNode l r, m => gathersLE l m && gathersLE r m

/-! ## Shared state and the admission component -/

/-- `CmdType` restricted to the values the tracker distinguishes. -/
inductive CmdType where
  | unknown
  | select
  | update
  | delete
  | insert
deriving DecidableEq, Repr

/-- `QoSBackendStatus` (`src/qos.h:76-83`): one slot of the per-backend
status array. -/
structure QoSBackendStatus where
  pid : Nat
  role_oid : Nat
  database_oid : Nat
  cmd_type : CmdType
  in_transaction : Bool
deriving DecidableEq, Repr

/-- A zeroed slot, as produced by shared-memory startup and process exit. -/
def emptySlot : QoSBackendStatus := ⟨0, 0, 0, .unknown, false⟩

/-- `QoSStats` (`src/qos.h:49-61`). -/
structure QoSStats where
  total_queries : Nat
  throttled_queries : Nat
  rejected_queries : Nat
  work_mem_violations : Nat
  cpu_violations : Nat
  concurrent_tx_violations : Nat
  concurrent_select_violations : Nat
  concurrent_update_violations : Nat
  concurrent_delete_violations : Nat
  concurrent_insert_violations : Nat
deriving DecidableEq, Repr

def zeroStats : QoSStats := ⟨0, 0, 0, 0, 0, 0, 0, 0, 0, 0⟩

/-- `QoSSharedState` (`src/qos.h:86-101`), restricted to the fields the
claims touch: statistics, the settings epoch, and the per-backend status
array (`n` = `max_backends`, the array indexed by 0-based `BackendId`). -/
structure QoSSharedState (n : Nat) where
  stats : QoSStats
  settings_epoch : Int
  backend_status : Fin n → QoSBackendStatus

/-- The session-local statics of the tracking modules together with the
session identity: `MyProcPid`, `GetUserId()`, `MyDatabaseId`, and the
`statement_tracked` / `current_statement_type` / `transaction_tracked`
flags. -/
structure BackendLocal where
  pid : Nat
  role_oid : Nat
  database_oid : Nat
  statement_tracked : Bool
  current_statement_type : CmdType
  transaction_tracked : Bool
deriving DecidableEq, Repr

/-- PostgreSQL error codes surfaced by the governor. -/
inductive ErrCode where
  | programLimitExceeded
  | insufficientResources
deriving DecidableEq, Repr

/-- An `ereport(ERROR, ...)` payload: code, message, detail, hint. -/
structure QosError where
  code : ErrCode
  message : String
  detail : String
  hint : String
deriving DecidableEq, Repr

/-- The `errdetail("Current: %d, Maximum: %d", ...)` text. -/
def currentMaxDetail (current maxv : Int) : String :=
  "Current: " ++ toString current ++ ", Maximum: " ++ toString maxv

/-- The limit field selected by the `switch (operation)` at the top of
`qos_track_statement_start`; `none` is the `default: return` arm. -/
def stmtLimit (L : QoSLimits) : CmdType → Option Int
  | .select => some L.max_concurrent_select
  | .update => some L.max_concurrent_update
  | .delete => some L.max_concurrent_delete
  | .insert => some L.max_concurrent_insert
  | .unknown => none

/-- The statement word used in the rejection message. -/
def stmtKindWord : CmdType → String
  | .select => "SELECT"
  | .update => "UPDATE"
  | .delete => "DELETE"
  | _ => "INSERT"

/-- The statistics update on a statement rejection: the per-kind violation
counter and `rejected_queries`, both in the same critical section. -/
def bumpStmtViolation (s : QoSStats) : CmdType → QoSStats
  | .select => { s with concurrent_select_violations := s.concurrent_select_violations + 1,
                        rejected_queries := s.rejected_queries + 1 }
  | .update => { s with concurrent_update_violations := s.concurrent_update_violations + 1,
                        rejected_queries := s.rejected_queries + 1 }
  | .delete => { s with concurrent_delete_violations := s.concurrent_delete_violations + 1,
                        rejected_queries := s.rejected_queries + 1 }
  | .insert => { s with concurrent_insert_violations := s.concurrent_insert_violations + 1,
                        rejected_queries := s.rejected_queries + 1 }
  | .unknown => { s with rejected_queries := s.rejected_queries + 1 }

/-- The statistics update on a transaction rejection. -/
def bumpTxViolation (s : QoSStats) : QoSStats :=
  { s with concurrent_tx_violations := s.concurrent_tx_violations + 1,
           rejected_queries := s.rejected_queries + 1 }

/-- The per-slot match tested by the statement admission scan: occupied
(`pid != 0`) and carrying this (role, database, command kind). -/
def statusMatchesStmt (st : QoSBackendStatus) (r d : Nat) (k : CmdType) : Bool :=
  st.pid != 0 && st.role_oid == r && st.database_oid == d && st.cmd_type == k

/-- The per-slot match tested by the transaction admission scan. -/
def statusMatchesTx (st : QoSBackendStatus) (r d : Nat) : Bool :=
  st.pid != 0 && st.role_oid == r && st.database_oid == d && st.in_transaction

/-- Number of occupied slots carrying (role, database, kind) — the quantity
the admission bound is about. -/
def stmtMatchCount (s : QoSSharedState n) (r d : Nat) (k : CmdType) : Nat :=
  (Finset.univ.filter fun i : Fin n =>
    statusMatchesStmt (s.backend_status i) r d k = true).card

/-- Number of occupied slots with `in_transaction` for (role, database). -/
def txMatchCount (s : QoSSharedState n) (r d : Nat) : Nat :=
  (Finset.univ.filter fun i : Fin n =>
    statusMatchesTx (s.backend_status i) r d = true).card

/-- The peer count computed by the scan loop of
`qos_track_statement_start`: same as `stmtMatchCount` but skipping the
scanning backend's own slot (`i == MyBackendId - 1`). -/
def peerCountStmt (s : QoSSharedState n) (me : Fin n) (r d : Nat)
    (k : CmdType) : Nat :=
  (Finset.univ.filter fun i : Fin n =>
    i ≠ me ∧ statusMatchesStmt (s.backend_status i) r d k = true).card

/-- The peer count computed by the scan loop of
`qos_track_transaction_start`. -/
def peerCountTx (s : QoSSharedState n) (me : Fin n) (r d : Nat) : Nat :=
  (Finset.univ.filter fun i : Fin n =>
    i ≠ me ∧ statusMatchesTx (s.backend_status i) r d = true).card

/-- Result of one tracking call: the shared state after the critical
section, the session-local state, and the error raised by `ereport`, if
any. -/
structure TrackResult (n : Nat) where
  shared : Option (QoSSharedState n)
  backend : BackendLocal
  error : Option QosError

/-- `qos_track_statement_start` (`hooks_statement.c`, the backend-array
revision shipped with the current `qos.h`): under one critical section,
scan the peers, reject with `PROGRAM_LIMIT_EXCEEDED` when
`limit_val > 0 && count >= limit_val` (bumping the violation counters in
the same section), otherwise register this backend's slot (preserving
`in_transaction`) and set the session tracking flags. -/
def qos_track_statement_start_core (s : QoSSharedState n) (b : BackendLocal)
    (me : Fin n) (limit_val : Int) (op : CmdType) : TrackResult n :=
  if 0 < limit_val ∧
      limit_val ≤ (peerCountStmt s me b.role_oid b.database_oid op : Int) then
    ⟨some { s with stats := bumpStmtViolation s.stats op }, b,
     some { code := .programLimitExceeded
            message := "qos: maximum concurrent " ++ stmtKindWord op ++
              " statements exceeded"
            detail := currentMaxDetail
              (peerCountStmt s me b.role_oid b.database_oid op) limit_val
            hint := "Wait for other queries to complete" }⟩
  else
    ⟨some { s with backend_status :=
                     Function.update s.backend_status me
                       { pid := b.pid
                         role_oid := b.role_oid
                         database_oid := b.database_oid
                         cmd_type := op
                         in_transaction :=
                           (s.backend_status me).in_transaction } },
     { b with statement_tracked := true, current_statement_type := op },
     none⟩

def qos_track_statement_start (enabled : Bool)
    (shared : Option (QoSSharedState n)) (b : BackendLocal) (me : Fin n)
    (limits : QoSLimits) (op : CmdType) : TrackResult n :=
  if ¬enabled ∨ b.statement_tracked then ⟨shared, b, none⟩
  else match stmtLimit limits op with
  | none => ⟨shared, b, none⟩
  | some limit_val =>
    match shared with
    | none => ⟨none, b, none⟩
    | some s => qos_track_statement_start_core s b me limit_val op

/-- `qos_track_statement_end` (`hooks_statement.c`): clear `cmd_type` when
the slot still belongs to this process, then clear the session flags. -/
def qos_track_statement_end_core (s : QoSSharedState n) (b : BackendLocal)
    (me : Fin n) : TrackResult n :=
  if (s.backend_status me).pid = b.pid then
    ⟨some { s with backend_status :=
                     Function.update s.backend_status me
                       { s.backend_status me with cmd_type := .unknown } },
     { b with statement_tracked := false,
              current_statement_type := .unknown }, none⟩
  else
    ⟨some s,
     { b with statement_tracked := false,
              current_statement_type := .unknown }, none⟩

def qos_track_statement_end (enabled : Bool)
    (shared : Option (QoSSharedState n)) (b : BackendLocal) (me : Fin n) :
    TrackResult n :=
  if ¬enabled ∨ ¬b.statement_tracked then ⟨shared, b, none⟩
  else match shared with
  | none =>
    ⟨none, { b with statement_tracked := false,
                    current_statement_type := .unknown }, none⟩
  | some s => qos_track_statement_end_core s b me

/-- `qos_track_transaction_start` (`src/hooks_transaction.c:182-243`). -/
def qos_track_transaction_start_core (s : QoSSharedState n) (b : BackendLocal)
    (me : Fin n) (limits : QoSLimits) : TrackResult n :=
  if 0 < limits.max_concurrent_tx then
    if limits.max_concurrent_tx ≤
        (peerCountTx s me b.role_oid b.database_oid : Int) then
      ⟨some { s with stats := bumpTxViolation s.stats }, b,
       some { code := .programLimitExceeded
              message := "qos: maximum concurrent transactions exceeded"
              detail := currentMaxDetail
                (peerCountTx s me b.role_oid b.database_oid)
                limits.max_concurrent_tx
              hint := "Wait for other transactions to complete" }⟩
    else
      ⟨some { s with backend_status :=
                       Function.update s.backend_status me
                         { pid := b.pid
                           role_oid := b.role_oid
                           database_oid := b.database_oid
                           cmd_type := (s.backend_status me).cmd_type
                           in_transaction := true } },
       { b with transaction_tracked := true }, none⟩
  else ⟨some s, b, none⟩

def qos_track_transaction_start (enabled : Bool)
    (shared : Option (QoSSharedState n)) (b : BackendLocal) (me : Fin n)
    (limits : QoSLimits) : TrackResult n :=
  if ¬enabled ∨ b.transaction_tracked then ⟨shared, b, none⟩
  else match shared with
  | none => ⟨none, b, none⟩
  | some s => qos_track_transaction_start_core s b me limits

/-- `qos_track_transaction_end` (`src/hooks_transaction.c:248-266`). -/
def qos_track_transaction_end_core (s : QoSSharedState n) (b : BackendLocal)
    (me : Fin n) : TrackResult n :=
  if (s.backend_status me).pid = b.pid then
    ⟨some { s with backend_status :=
                     Function.update s.backend_status me
                       { s.backend_status me with in_transaction := false } },
     { b with transaction_tracked := false }, none⟩
  else ⟨some s, { b with transaction_tracked := false }, none⟩

def qos_track_transaction_end (enabled : Bool)
    (shared : Option (QoSSharedState n)) (b : BackendLocal) (me : Fin n) :
    TrackResult n :=
  if ¬enabled ∨ ¬b.transaction_tracked then ⟨shared, b, none⟩
  else match shared with
  | none => ⟨none, { b with transaction_tracked := false }, none⟩
  | some s => qos_track_transaction_end_core s b me

/-! ## The concurrent transition system built from the tracking calls -/

/-- A cluster configuration: per-backend identity (one process per slot,
`pid` non-zero) and the configured limits per (role, database).  Each
admission reads its limits through the session cache; the bound claims are
about states where every admission for a tuple uses the configured limit,
so the cache is taken as in sync with `limitsOf`. -/
structure Config (n : Nat) where
  role : Fin n → Nat
  db : Fin n → Nat
  pid : Fin n → Nat
  pid_ne : ∀ i, pid i ≠ 0
  limitsOf : Nat → Nat → QoSLimits

/-- The mutable session-local flags of one backend. -/
structure LocalFlags where
  statement_tracked : Bool
  current_statement_type : CmdType
  transaction_tracked : Bool
deriving DecidableEq, Repr

def initFlags : LocalFlags := ⟨false, .unknown, false⟩

/-- Assemble a `BackendLocal` from a backend's fixed identity and its
current flags. -/
def mkLocal (cfg : Config n) (i : Fin n) (f : LocalFlags) : BackendLocal :=
  ⟨cfg.pid i, cfg.role i, cfg.db i, f.statement_tracked,
   f.current_statement_type, f.transaction_tracked⟩

def flagsOf (b : BackendLocal) : LocalFlags :=
  ⟨b.statement_tracked, b.current_statement_type, b.transaction_tracked⟩

/-- Whole-cluster state: the shared region plus each backend's local
flags. -/
structure GState (n : Nat) where
  shared : QoSSharedState n
  flags : Fin n → LocalFlags

/-- The shared region as zeroed by `qos_shmem_startup`. -/
def initSharedState (n : Nat) : QoSSharedState n :=
  { stats := zeroStats, settings_epoch := 0, backend_status := fun _ => emptySlot }

def initGState (n : Nat) : GState n := ⟨initSharedState n, fun _ => initFlags⟩

def applyTrack (g : GState n) (i : Fin n) (r : TrackResult n) : GState n :=
  ⟨r.shared.getD g.shared, Function.update g.flags i (flagsOf r.backend)⟩

def doStmtStart (cfg : Config n) (g : GState n) (i : Fin n) (op : CmdType)
    (en : Bool) : GState n :=
  applyTrack g i (qos_track_statement_start en (some g.shared)
    (mkLocal cfg i (g.flags i)) i (cfg.limitsOf (cfg.role i) (cfg.db i)) op)

def doStmtEnd (cfg : Config n) (g : GState n) (i : Fin n) (en : Bool) :
    GState n :=
  applyTrack g i (qos_track_statement_end en (some g.shared)
    (mkLocal cfg i (g.flags i)) i)

def doTxStart (cfg : Config n) (g : GState n) (i : Fin n) (en : Bool) :
    GState n :=
  applyTrack g i (qos_track_transaction_start en (some g.shared)
    (mkLocal cfg i (g.flags i)) i (cfg.limitsOf (cfg.role i) (cfg.db i)))

def doTxEnd (cfg : Config n) (g : GState n) (i : Fin n) (en : Bool) :
    GState n :=
  applyTrack g i (qos_track_transaction_end en (some g.shared)
    (mkLocal cfg i (g.flags i)) i)

/-- Process exit: the host zeroes the backend's slot; a new process starts
with fresh session-local statics. -/
def doExit (_cfg : Config n) (g : GState n) (i : Fin n) : GState n :=
  ⟨{ g.shared with
      backend_status := Function.update g.shared.backend_status i emptySlot },
   Function.update g.flags i initFlags⟩

/-- One interleaving step: some backend runs one tracking entry point (the
lock makes each call atomic with respect to the shared region), or exits. -/
inductive Step (cfg : Config n) : GState n → GState n → Prop where
  | stmtStart (g : GState n) (i : Fin n) (op : CmdType) (en : Bool) :
      Step cfg g (doStmtStart cfg g i op en)
  | stmtEnd (g : GState n) (i : Fin n) (en : Bool) :
      Step cfg g (doStmtEnd cfg g i en)
  | txStart (g : GState n) (i : Fin n) (en : Bool) :
      Step cfg g (doTxStart cfg g i en)
  | txEnd (g : GState n) (i : Fin n) (en : Bool) :
      Step cfg g (doTxEnd cfg g i en)
  | backendExit (g : GState n) (i : Fin n) :
      Step cfg g (doExit cfg g i)

/-- States reachable from the zeroed startup state. -/
def Reachable (cfg : Config n) (g : GState n) : Prop :=
  Relation.ReflTransGen (Step cfg) (initGState n) g

/-- The inductive invariant: slots reflect their owner's identity, a slot's
command/transaction markers are cleared whenever the owner's tracking flag
is, empty slots carry no markers, and the two admission bounds. -/
def Inv (cfg : Config n) (g : GState n) : Prop :=
  (∀ i, (g.shared.backend_status i).pid ≠ 0 →
    (g.shared.backend_status i).pid = cfg.pid i ∧
    (g.shared.backend_status i).role_oid = cfg.role i ∧
    (g.shared.backend_status i).database_oid = cfg.db i) ∧
  (∀ i, (g.flags i).statement_tracked = false →
    (g.shared.backend_status i).cmd_type = .unknown) ∧
  (∀ i, (g.flags i).transaction_tracked = false →
    (g.shared.backend_status i).in_transaction = false) ∧
  (∀ i, (g.shared.backend_status i).pid = 0 →
    (g.shared.backend_status i).cmd_type = .unknown ∧
    (g.shared.backend_status i).in_transaction = false) ∧
  (∀ r d k lim, stmtLimit (cfg.limitsOf r d) k = some lim → 1 ≤ lim →
    (stmtMatchCount g.shared r d k : Int) ≤ lim) ∧
  (∀ r d, (txMatchCount g.shared r d : Int) ≤
    max (cfg.limitsOf r d).max_concurrent_tx 0)

/-- A one-backend configuration used to exercise the theorems: role 1 in
database 1, `max_concurrent_select = 2` and `max_concurrent_tx = 1`. -/
def cfgOne : Config 1 :=
  { role := fun _ => 1
    db := fun _ => 1
    pid := fun _ => 5
    pid_ne := fun _ => Nat.succ_ne_zero 4
    limitsOf := fun _ _ =>
      { allUnsetLimits with max_concurrent_select := 2, max_concurrent_tx := 1 } }

/-- A one-backend configuration with `max_concurrent_select = 0`. -/
def cfgZero : Config 1 :=
  { role := fun _ => 1
    db := fun _ => 1
    pid := fun _ => 5
    pid_ne := fun _ => Nat.succ_ne_zero 4
    limitsOf := fun _ _ => { allUnsetLimits with max_concurrent_select := 0 } }

/-- A two-backend shared state with slot 0 occupied by a peer holding a
`SELECT` inside a transaction for (role 1, database 1). -/
def demoShared : QoSSharedState 2 :=
  ⟨zeroStats, 0,
   fun j => if j = 0 then ⟨7, 1, 1, CmdType.select, true⟩ else emptySlot⟩

/-- Backend 1's session-local view: pid 9, (role 1, database 1), nothing
tracked yet. -/
def demoBackend : BackendLocal := ⟨9, 1, 1, false, CmdType.unknown, false⟩

/-- Limits that let exactly one concurrent SELECT and one concurrent
transaction through. -/
def demoLimits : QoSLimits :=
  { allUnsetLimits with max_concurrent_select := 1, max_concurrent_tx := 1 }

/-! ## Claim C7: the work_mem policy switch -/

/-- The value carried by the first `A_Const` argument of `SET work_mem`. -/
inductive AConstVal where
  | intVal (i : Int)
  | strVal (v : List Char)
  | otherVal
deriving DecidableEq, Repr

/-- The `VariableSetStmt` fields read by `qos_enforce_work_mem_limit`:
`name` (may be NULL), whether `kind == VAR_SET_VALUE`, and `args`
(`[]` = `NIL`). -/
structure VariableSetStmt' where
  name : Option (List Char)
  isSetValue : Bool
  args : List AConstVal
deriving DecidableEq, Repr

/-- The session-local statics of the work-mem module: the `work_mem` GUC
(in KB) and the once-per-epoch enforcement latch. -/
structure WorkMemSession where
  work_mem : Int
  work_mem_enforced : Bool
  work_mem_last_epoch : Int
deriving DecidableEq, Repr

/-- Result of `qos_enforce_work_mem_limit`: the session statics after the
call, whether `stats.work_mem_violations` was incremented under the lock,
and the error raised by `ereport(ERROR, ...)`, if any. -/
structure WorkMemResult where
  session : WorkMemSession
  violation_bumped : Bool
  error : Option QosError
deriving DecidableEq, Repr

/-- The `errdetail("Requested %ld KB, maximum allowed is %ld KB", ...)`
text; C division of `int64` truncates toward zero. -/
def workMemDetail (reqBytes maxBytes : Int) : String :=
  "Requested " ++ toString (Int.tdiv reqBytes 1024) ++
    " KB, maximum allowed is " ++ toString (Int.tdiv maxBytes 1024) ++ " KB"

/-- The error raised when `SET work_mem` exceeds the limit. -/
def workMemError (reqBytes maxBytes : Int) : QosError :=
  { code := .insufficientResources
    message := "qos: work_mem limit exceeded"
    detail := workMemDetail reqBytes maxBytes
    hint := "Contact administrator to increase qos.work_mem_limit" }

/-- The `stmt == NULL` epoch check of `qos_enforce_work_mem_limit`: when
the shared epoch differs from `work_mem_last_epoch`, drop the latch and
remember the epoch. -/
def qos_work_mem_epoch_sync (sharedEpoch : Option Int)
    (sess : WorkMemSession) : WorkMemSession :=
  match sharedEpoch with
  | some ep =>
    if ep ≠ sess.work_mem_last_epoch then
      ⟨sess.work_mem, false, ep⟩
    else sess
  | none => sess

/-- The session-start arm of `qos_enforce_work_mem_limit`: enforce at most
once per epoch; cap `work_mem` to `work_mem_limit / 1024` KB when over. -/
def qos_work_mem_session_check (limits : QoSLimits)
    (sess : WorkMemSession) : WorkMemResult :=
  if sess.work_mem_enforced then ⟨sess, false, none⟩
  else if limits.work_mem_limit < sess.work_mem * 1024 then
    ⟨⟨Int.tdiv limits.work_mem_limit 1024, true, sess.work_mem_last_epoch⟩,
     true, none⟩
  else ⟨⟨sess.work_mem, true, sess.work_mem_last_epoch⟩, false, none⟩

/-- `qos_enforce_work_mem_limit` (`src/hooks_resource.c:494-605`): on
`SET work_mem` with an explicit value, reject with
`ERRCODE_INSUFFICIENT_RESOURCES` when the requested value exceeds
`work_mem_limit`; at session start (`stmt == NULL`), cap the current
`work_mem` once per settings epoch. -/
def qos_enforce_work_mem_limit (enabled : Bool) (limits : QoSLimits)
    (sharedEpoch : Option Int) (sess : WorkMemSession)
    (stmt : Option VariableSetStmt') : WorkMemResult :=
  if enabled = false then ⟨sess, false, none⟩
  else if limits.work_mem_limit < 0 then ⟨sess, false, none⟩
  else match stmt with
  | some st =>
    match st.name with
    | none => ⟨sess, false, none⟩
    | some nm =>
      if nm = "work_mem".toList ∧ st.isSetValue = true ∧ st.args ≠ [] then
        match st.args.head? with
        | some (AConstVal.intVal i) =>
          if limits.work_mem_limit < i * 1024 then
            ⟨sess, true, some (workMemError (i * 1024) limits.work_mem_limit)⟩
          else ⟨sess, false, none⟩
        | some (AConstVal.strVal v) =>
          if limits.work_mem_limit < qos_parse_memory_unit v then
            ⟨sess, true,
             some (workMemError (qos_parse_memory_unit v)
               limits.work_mem_limit)⟩
          else ⟨sess, false, none⟩
        | some AConstVal.otherVal => ⟨sess, false, none⟩
        | none => ⟨sess, false, none⟩
      else ⟨sess, false, none⟩
  | none => qos_work_mem_session_check limits (qos_work_mem_epoch_sync sharedEpoch sess)

/-- Limits with `work_mem_limit = 1 MB` and `work_mem_error_level`
explicitly at its `warning` value. -/
def demoWMLimits : QoSLimits :=
  { allUnsetLimits with work_mem_limit := 1024 * 1024,
                        work_mem_error_level := QOS_WORK_MEM_ERROR_WARNING }

/-- A session whose `work_mem` is 4 MB (4096 KB), nothing enforced yet. -/
def demoWMSession : WorkMemSession := ⟨4096, false, 0⟩

/-! ## Claim C8: the catalog reader -/

/-- Heavyweight lock modes taken on `pg_db_role_setting`. -/
inductive LockMode where
  | accessShare
  | rowExclusive
deriving DecidableEq, Repr

/-- One `pg_db_role_setting` row: the scan keys and the `setconfig` text
array (the array and its elements are nullable). -/
structure PgDbRoleSettingRow where
  setdatabase : Nat
  setrole : Nat
  setconfig : Option (List (Option (List Char)))
deriving DecidableEq, Repr

/-- What one `qos_get_role_limits` / `qos_get_database_limits` call did:
the limits it computed, the lock it took on the catalog, how many rows
`systable_getnext` returned, how many scans were opened and closed, the
catalog contents after the call, and whether `CatalogTupleUpdate` ran. -/
structure CatalogReadResult where
  limits : QoSLimits
  lockMode : LockMode
  rowsRead : Nat
  scansOpened : Nat
  scansClosed : Nat
  catalog : List PgDbRoleSettingRow
  catalogUpdated : Bool
deriving DecidableEq, Repr

/-- `qos_normalize_work_mem_value` (`src/qos.c:614-684`): digits,
optional whitespace, optional alphabetic unit, nothing else; a missing
unit becomes `MB`, `k`/`kb` become `kB`, `m`/`mb` become `MB`, `g`/`gb`
become `GB`, anything else fails. -/
def qos_normalize_work_mem_value (value : List Char) : Option (List Char) :=
  let p1 := value.dropWhile qos_isspace
  let num := p1.takeWhile qos_isdigit
  let p2 := p1.dropWhile qos_isdigit
  let p3 := p2.dropWhile qos_isspace
  let unit := p3.takeWhile qos_isalpha
  let p4 := p3.dropWhile qos_isalpha
  if num.isEmpty then none
  else if ¬p4.isEmpty then none
  else if unit.isEmpty then some (num ++ "MB".toList)
  else if caseEq unit "k".toList || caseEq unit "kb".toList then
    some (num ++ "kB".toList)
  else if caseEq unit "m".toList || caseEq unit "mb".toList then
    some (num ++ "MB".toList)
  else if caseEq unit "g".toList || caseEq unit "gb".toList then
    some (num ++ "GB".toList)
  else none

/-- `qos_is_valid_qos_setting_entry` (`src/qos.c:578-612`): entries
without `=` are invalid, entries whose name does not start with `qos.`
are left alone (valid), `qos.*` entries are validated through
`qos_apply_qos_param_value` with a `NULL` limits pointer. -/
def qos_is_valid_qos_setting_entry (config : List Char) : Bool :=
  match splitAtFirstEq config with
  | none => false
  | some (name0, value0) =>
    let nm := qos_trim_whitespace name0
    let tv := qos_trim_whitespace value0
    if ¬qosPrefix nm then true
    else
      match qos_apply_qos_param_value none (some nm) (some tv) false with
      | .ok _ ret => ret
      | .err => false

/-- One iteration of the cleanup loop of
`qos_cleanup_invalid_qos_settings`: the accumulator is (kept entries,
`removed` flag). -/
def cleanupStep (acc : List (Option (List Char)) × Bool)
    (e : Option (List Char)) : List (Option (List Char)) × Bool :=
  match e with
  | none => (acc.1, true)
  | some config_str =>
    if qosPrefix config_str then
      if ¬qos_is_valid_qos_setting_entry config_str then (acc.1, true)
      else
        match splitAtFirstEq config_str with
        | some (name0, value0) =>
          if qos_trim_whitespace name0 = "qos.work_mem_limit".toList then
            match qos_normalize_work_mem_value (qos_trim_whitespace value0) with
            | some nv =>
              if nv ≠ qos_trim_whitespace value0 then
                (acc.1 ++ [some (qos_trim_whitespace name0 ++ '=' :: nv)], true)
              else (acc.1 ++ [some config_str], acc.2)
            | none => (acc.1 ++ [some config_str], acc.2)
          else (acc.1 ++ [some config_str], acc.2)
        | none => (acc.1 ++ [some config_str], acc.2)
    else (acc.1 ++ [some config_str], acc.2)

/-- `qos_cleanup_invalid_qos_settings` (`src/qos.c:687-841`): drop null
and invalid `qos.*` entries, rewrite `qos.work_mem_limit` values to their
normalized spelling, and report whether anything changed (in which case
the caller's tuple is rewritten with `CatalogTupleUpdate`).  `guardHit`
is the static (command id, database, role) dedup check. -/
def qos_cleanup_invalid_qos_settings
    (configs : Option (List (Option (List Char)))) (guardHit : Bool) :
    Option (List (Option (List Char))) × Bool :=
  match configs with
  | none => (none, false)
  | some elems =>
    if elems.length = 0 then (some elems, false)
    else if guardHit then (some elems, false)
    else
      if (elems.foldl cleanupStep ([], false)).2 = false then
        (some elems, false)
      else (some (elems.foldl cleanupStep ([], false)).1, true)

/-- `parse_role_configs` (`src/qos.c:196-245`): fold the entries through
`qos_apply_qos_param_value` in non-strict mode. -/
def parse_role_configs (configs : List (Option (List Char)))
    (limits0 : QoSLimits) : QoSLimits :=
  configs.foldl
    (fun L e =>
      match e with
      | none => L
      | some config_str =>
        match splitAtFirstEq config_str with
        | some (name0, value0) =>
          if qosPrefix (qos_trim_whitespace name0) then
            match qos_apply_qos_param_value (some L)
                (some (qos_trim_whitespace name0))
                (some (qos_trim_whitespace value0)) false with
            | .ok (some L2) _ => L2
            | .ok none _ => L
            | .err => L
          else L
        | none => L)
    limits0

/-- The body shared by `qos_get_role_limits` and
`qos_get_database_limits`: open `pg_db_role_setting` with
`RowExclusiveLock`, scan by (setdatabase, setrole), call
`systable_getnext` once, run the cleanup, parse, close. -/
def qos_read_db_role_setting (cat : List PgDbRoleSettingRow)
    (keyDb keyRole : Nat) (guardHit : Bool) : CatalogReadResult :=
  match cat.find? (fun r => r.setdatabase == keyDb && r.setrole == keyRole) with
  | none => ⟨allUnsetLimits, .rowExclusive, 0, 1, 1, cat, false⟩
  | some row =>
    match row.setconfig with
    | none => ⟨allUnsetLimits, .rowExclusive, 1, 1, 1, cat, false⟩
    | some configs =>
      ⟨parse_role_configs
         ((qos_cleanup_invalid_qos_settings (some configs) guardHit).1.getD
           configs)
         allUnsetLimits,
       .rowExclusive, 1, 1, 1,
       (if (qos_cleanup_invalid_qos_settings (some configs) guardHit).2 = true
        then
          cat.map fun r =>
            if r.setdatabase == keyDb && r.setrole == keyRole then
              ⟨r.setdatabase, r.setrole,
               (qos_cleanup_invalid_qos_settings (some configs) guardHit).1⟩
            else r
        else cat),
       (qos_cleanup_invalid_qos_settings (some configs) guardHit).2⟩

/-- `qos_get_role_limits` (`src/qos.c:846-909`): key (InvalidOid, roleId). -/
def qos_get_role_limits (cat : List PgDbRoleSettingRow) (roleId : Nat)
    (guardHit : Bool) : CatalogReadResult :=
  qos_read_db_role_setting cat 0 roleId guardHit

/-- `qos_get_database_limits` (`src/qos.c:914-976`): key (dbId, InvalidOid). -/
def qos_get_database_limits (cat : List PgDbRoleSettingRow) (dbId : Nat)
    (guardHit : Bool) : CatalogReadResult :=
  qos_read_db_role_setting cat dbId 0 guardHit

/-- A catalog with one role row whose `qos.work_mem_limit` value is
spelled without a unit. -/
def demoCatalog : List PgDbRoleSettingRow :=
  [⟨0, 10, some [some "qos.work_mem_limit=64".toList]⟩]

/-! ## Claim C4: settings-epoch freshness -/

/-- The inner `VariableSetStmt` of an `ALTER ROLE/DATABASE ... SET`: its
(nullable) name and whether its kind is `VAR_RESET_ALL`. -/
structure SetStmt where
  name : Option (List Char)
  isResetAll : Bool
deriving DecidableEq, Repr

/-- The utility parse-tree shapes distinguished by `qos_ProcessUtility`. -/
inductive UtilityStmt where
  | variableSet (st : SetStmt)
  | alterRoleSet (setstmt : Option SetStmt)
  | alterDatabaseSet (setstmt : Option SetStmt)
  | explainStmt (isAnalyze : Bool)
  | prepareStmt
  | otherStmt
deriving DecidableEq, Repr

/-- The `bump_epoch_after` test of `qos_ProcessUtility`: an
`AlterRoleSetStmt` or `AlterDatabaseSetStmt` whose inner statement is
present and either names `qos.*` (case-insensitive prefix) or is
`RESET ALL`. -/
def qos_bump_epoch_condition : UtilityStmt → Bool
  | .alterRoleSet (some st) =>
    (match st.name with
     | some nm => qosPrefix nm
     | none => false) || st.isResetAll
  | .alterDatabaseSet (some st) =>
    (match st.name with
     | some nm => qosPrefix nm
     | none => false) || st.isResetAll
  | _ => false

/-- `qos_notify_settings_change` (`src/hooks_cache.c:89-100`): bump
`settings_epoch` under `LW_EXCLUSIVE`; no-op when the shared segment is
absent. -/
def qos_notify_settings_change : Option Int → Option Int
  | none => none
  | some ep => some (ep + 1)

/-- The settings-epoch effect of `qos_ProcessUtility`
(`hooks.c`): the bump runs only when `qos_enabled`, the parse tree
matches the condition, and the host's `standard_ProcessUtility` returned
(did not raise) — `hostSuccess = false` models the error path, where the
`ereport` longjmp skips the bump. -/
def qos_ProcessUtility_epoch (enabled : Bool) (pt : UtilityStmt)
    (shared : Option Int) (hostSuccess : Bool) : Option Int :=
  if enabled = true ∧ qos_bump_epoch_condition pt = true ∧
      hostSuccess = true then
    qos_notify_settings_change shared
  else shared


/-! ## Lemmas and claim theorems -/

/-! ## Character-class helper lemmas -/

lemma isdigit_not_isspace {c : Char} (h : qos_isdigit c = true) :
    qos_isspace c = false := by
  cases hc : qos_isspace c
  · rfl
  · exfalso
    simp only [qos_isspace, Bool.or_eq_true, decide_eq_true_eq] at hc
    rcases hc with ((((rfl | rfl) | rfl) | rfl) | rfl) | rfl <;>
      exact absurd h (by decide)

lemma isdigit_ne_minus {c : Char} (h : qos_isdigit c = true) : c ≠ '-' := by
  rintro rfl; exact absurd h (by decide)

lemma isdigit_ne_plus {c : Char} (h : qos_isdigit c = true) : c ≠ '+' := by
  rintro rfl; exact absurd h (by decide)

lemma isdigit_tolower {c : Char} (h : qos_isdigit c = true) :
    qos_tolower c = c := by
  unfold qos_tolower
  rw [if_neg]
  rintro ⟨h1, h2⟩
  simp only [qos_isdigit, Bool.and_eq_true, decide_eq_true_eq] at h
  exact absurd (le_trans h1 h.2) (by decide)

lemma isspace_tolower {c : Char} (h : qos_isspace c = true) :
    qos_tolower c = c := by
  simp only [qos_isspace, Bool.or_eq_true, decide_eq_true_eq] at h
  rcases h with ((((rfl | rfl) | rfl) | rfl) | rfl) | rfl <;> decide

/-- A non-empty suffix accepted by `suffixMult` begins with a letter whose
lower-case form is `k`, `m` or `g`. -/
lemma suffixMult_head {c : Char} {t : List Char} {m : Int}
    (hm : suffixMult (c :: t) = some m) :
    qos_tolower c = 'k' ∨ qos_tolower c = 'm' ∨ qos_tolower c = 'g' := by
  unfold suffixMult at hm
  simp only [List.isEmpty_cons, Bool.false_eq_true, if_false] at hm
  by_cases h1 : (caseEq (c :: t) "kb".toList || caseEq (c :: t) "k".toList) = true
  · left
    rcases Bool.or_eq_true _ _ |>.mp h1 with h | h <;>
    · simp only [caseEq, List.map_cons, beq_iff_eq] at h
      simpa using congrArg List.head? h
  · rw [if_neg h1] at hm
    by_cases h2 : (caseEq (c :: t) "mb".toList || caseEq (c :: t) "m".toList) = true
    · right; left
      rcases Bool.or_eq_true _ _ |>.mp h2 with h | h <;>
      · simp only [caseEq, List.map_cons, beq_iff_eq] at h
        simpa using congrArg List.head? h
    · rw [if_neg h2] at hm
      by_cases h3 : (caseEq (c :: t) "gb".toList || caseEq (c :: t) "g".toList) = true
      · right; right
        rcases Bool.or_eq_true _ _ |>.mp h3 with h | h <;>
        · simp only [caseEq, List.map_cons, beq_iff_eq] at h
          simpa using congrArg List.head? h
      · rw [if_neg h3] at hm
        exact absurd hm (by simp)

/-- A suffix accepted by `suffixMult` has no leading digit and no leading
whitespace, so the scanner's `takeWhile`/`dropWhile` leave it alone. -/
lemma suffixMult_skip {suf : List Char} {m : Int} (hm : suffixMult suf = some m) :
    suf.takeWhile qos_isdigit = [] ∧ suf.dropWhile qos_isdigit = suf ∧
      suf.dropWhile qos_isspace = suf := by
  cases suf with
  | nil => exact ⟨rfl, rfl, rfl⟩
  | cons c t =>
    have hhead := suffixMult_head hm
    have hnd : qos_isdigit c = false := by
      cases hd : qos_isdigit c
      · rfl
      · exfalso
        rw [isdigit_tolower hd] at hhead
        rcases hhead with rfl | rfl | rfl <;> exact absurd hd (by decide)
    have hns : qos_isspace c = false := by
      cases hs : qos_isspace c
      · rfl
      · exfalso
        rw [isspace_tolower hs] at hhead
        rcases hhead with rfl | rfl | rfl <;> exact absurd hs (by decide)
    refine ⟨?_, ?_, ?_⟩
    · simp [List.takeWhile_cons, hnd]
    · simp [List.dropWhile_cons, hnd]
    · simp [List.dropWhile_cons, hns]

lemma takeWhile_append_of_all {p : Char → Bool} {l1 l2 : List Char}
    (h : ∀ c ∈ l1, p c = true) :
    (l1 ++ l2).takeWhile p = l1 ++ l2.takeWhile p := by
  induction l1 with
  | nil => simp
  | cons c t ih =>
    have hc := h c (List.mem_cons_self c t)
    simp only [List.cons_append, List.takeWhile_cons, hc, if_true]
    rw [ih (fun x hx => h x (List.mem_cons_of_mem c hx))]

lemma dropWhile_append_of_all {p : Char → Bool} {l1 l2 : List Char}
    (h : ∀ c ∈ l1, p c = true) :
    (l1 ++ l2).dropWhile p = l2.dropWhile p := by
  induction l1 with
  | nil => simp
  | cons c t ih =>
    have hc := h c (List.mem_cons_self c t)
    simp only [List.cons_append, List.dropWhile_cons, hc, if_true]
    exact ih (fun x hx => h x (List.mem_cons_of_mem c hx))

lemma dropWhile_eq_self_of_takeWhile_nil {p : Char → Bool} {l : List Char}
    (h : l.takeWhile p = []) : l.dropWhile p = l := by
  cases l with
  | nil => rfl
  | cons a t =>
    by_cases ha : p a = true
    · simp [List.takeWhile_cons, ha] at h
    · simp only [Bool.not_eq_true] at ha
      simp [List.dropWhile_cons, ha]

/-! ## Behavior of the `strtoll` model on well-formed literals -/

lemma strtoll64Core_digits {ds suf : List Char}
    (hne : ds ≠ []) (hds : ∀ c ∈ ds, qos_isdigit c = true)
    (hsuf : suf.takeWhile qos_isdigit = []) :
    strtoll64Core false (ds ++ suf) =
      if INT64_MAX < (digitsToNat ds : Int) then none
      else some ((digitsToNat ds : Int), suf) := by
  have htake : (ds ++ suf).takeWhile qos_isdigit = ds := by
    rw [takeWhile_append_of_all hds, hsuf, List.append_nil]
  have hdrop : (ds ++ suf).dropWhile qos_isdigit = suf := by
    rw [dropWhile_append_of_all hds, dropWhile_eq_self_of_takeWhile_nil hsuf]
  have hie : ds.isEmpty = false := by
    cases ds
    · exact absurd rfl hne
    · rfl
  unfold strtoll64Core
  rw [htake, hdrop]
  simp only [hie, Bool.false_eq_true, if_false]
  by_cases hov : INT64_MAX < (digitsToNat ds : Int)
  · rw [if_pos (Or.inr hov), if_pos hov]
  · have h1 : ¬((digitsToNat ds : Int) < INT64_MIN) :=
      not_lt.mpr (le_trans (by decide) (Int.natCast_nonneg _))
    rw [if_neg (by rintro (h | h); exacts [h1 h, hov h]), if_neg hov]

lemma strtoll64Core_digits_neg {ds suf : List Char}
    (hne : ds ≠ []) (hds : ∀ c ∈ ds, qos_isdigit c = true)
    (hsuf : suf.takeWhile qos_isdigit = []) :
    strtoll64Core true (ds ++ suf) =
      if -(digitsToNat ds : Int) < INT64_MIN then none
      else some (-(digitsToNat ds : Int), suf) := by
  have htake : (ds ++ suf).takeWhile qos_isdigit = ds := by
    rw [takeWhile_append_of_all hds, hsuf, List.append_nil]
  have hdrop : (ds ++ suf).dropWhile qos_isdigit = suf := by
    rw [dropWhile_append_of_all hds, dropWhile_eq_self_of_takeWhile_nil hsuf]
  have hie : ds.isEmpty = false := by
    cases ds
    · exact absurd rfl hne
    · rfl
  unfold strtoll64Core
  rw [htake, hdrop]
  simp only [hie, Bool.false_eq_true, if_false, if_true]
  by_cases hun : -(digitsToNat ds : Int) < INT64_MIN
  · rw [if_pos (Or.inl hun), if_pos hun]
  · have h2 : ¬(INT64_MAX < -(digitsToNat ds : Int)) :=
      not_lt.mpr (le_trans (neg_nonpos_of_nonneg (Int.natCast_nonneg _)) (by decide))
    rw [if_neg (by rintro (h | h); exacts [hun h, h2 h]), if_neg hun]

lemma strtoll64_digits_append {ds suf : List Char}
    (hne : ds ≠ []) (hds : ∀ c ∈ ds, qos_isdigit c = true) :
    strtoll64 (ds ++ suf) = strtoll64Core false (ds ++ suf) := by
  obtain ⟨c, t, rfl⟩ := List.exists_cons_of_ne_nil hne
  have hc : qos_isdigit c = true := hds c (List.mem_cons_self c t)
  have hL1 : ((c :: t) ++ suf).dropWhile qos_isspace = (c :: t) ++ suf := by
    simp [List.cons_append, List.dropWhile_cons, isdigit_not_isspace hc]
  unfold strtoll64
  rw [hL1]
  rw [if_neg (by
    rw [List.cons_append, List.head?_cons]
    intro h; injection h with h; exact isdigit_ne_minus hc h)]
  rw [if_neg (by
    rw [List.cons_append, List.head?_cons]
    intro h; injection h with h; exact isdigit_ne_plus hc h)]

lemma strtoll64_minus (l : List Char) :
    strtoll64 ('-' :: l) = strtoll64Core true l := by
  have h : ('-' :: l).dropWhile qos_isspace = '-' :: l := by
    simp [List.dropWhile_cons, show qos_isspace '-' = false from by decide]
  unfold strtoll64
  rw [h, if_pos (show ('-' :: l).head? = some '-' from rfl)]
  rfl

lemma qos_parse_memory_value_eq_of_strtoll {v : List Char} {b : Int} {r : List Char}
    (hv : v.isEmpty = false) (h : strtoll64 v = some (b, r)) :
    qos_parse_memory_value v = memValueChecks b (r.dropWhile qos_isspace) := by
  unfold qos_parse_memory_value
  rw [if_neg (by simp [hv]), h]

lemma qos_parse_memory_value_eq_none_of_strtoll {v : List Char}
    (hv : v.isEmpty = false) (h : strtoll64 v = none) :
    qos_parse_memory_value v = none := by
  unfold qos_parse_memory_value
  rw [if_neg (by simp [hv]), h]

/-! ## Claim C6: the memory-literal parser contract -/

/-- Claim C6 (amended): `qos_parse_memory_value` accepts a decimal digit run
followed by an optional case-insensitive suffix from
`{k, kB, m, MB, g, GB}`; a literal with no suffix gets multiplier 1 (it is
taken as bytes, not kilobytes); `-1` followed by any unit suffix is an
error; a 64-bit-overflowing literal or multiplication is detected and is an
error; and any negative literal below `-1` is rejected. -/
theorem memory_parser_contract (ds suf : List Char) (m : Int)
    (hne : ds ≠ []) (hds : ∀ c ∈ ds, qos_isdigit c = true)
    (hm : suffixMult suf = some m) :
    (qos_parse_memory_value (ds ++ suf) =
       if INT64_MAX < (digitsToNat ds : Int) then none
       else if 0 < (digitsToNat ds : Int) ∧ 1 < m ∧
              INT64_MAX / m < (digitsToNat ds : Int) then none
       else some ((digitsToNat ds : Int) * m)) ∧
    (suf ≠ [] → qos_parse_memory_value ('-' :: '1' :: suf) = none) ∧
    (2 ≤ digitsToNat ds → qos_parse_memory_value ('-' :: ds) = none) := by
  obtain ⟨hsuf_take, hsuf_drop, hsuf_space⟩ := suffixMult_skip hm
  have hb0 : (0 : Int) ≤ (digitsToNat ds : Int) := Int.natCast_nonneg _
  refine ⟨?_, ?_, ?_⟩
  · have hie : (ds ++ suf).isEmpty = false := by
      cases ds
      · exact absurd rfl hne
      · rfl
    by_cases hov : INT64_MAX < (digitsToNat ds : Int)
    · have hnone : strtoll64 (ds ++ suf) = none := by
        rw [strtoll64_digits_append hne hds, strtoll64Core_digits hne hds hsuf_take,
          if_pos hov]
      rw [qos_parse_memory_value_eq_none_of_strtoll hie hnone, if_pos hov]
    · have hsome : strtoll64 (ds ++ suf) = some ((digitsToNat ds : Int), suf) := by
        rw [strtoll64_digits_append hne hds, strtoll64Core_digits hne hds hsuf_take,
          if_neg hov]
      rw [qos_parse_memory_value_eq_of_strtoll hie hsome, hsuf_space, if_neg hov]
      unfold memValueChecks
      rw [hm, Option.some_bind]
      rw [if_neg (by rintro ⟨h1, -⟩; rw [h1] at hb0; exact absurd hb0 (by decide))]
      rw [if_neg (not_lt.mpr (le_trans (by decide) hb0))]
  · intro hsne
    have hsome : strtoll64 ('-' :: '1' :: suf) = some (-1, suf) := by
      rw [strtoll64_minus,
        show ('1' : Char) :: suf = ['1'] ++ suf from rfl,
        strtoll64Core_digits_neg (by simp) (by decide) hsuf_take]
      simp only [show digitsToNat ['1'] = 1 from rfl, Nat.cast_one]
      rw [if_neg (by decide)]
    have hie2 : ('-' :: '1' :: suf).isEmpty = false := rfl
    rw [qos_parse_memory_value_eq_of_strtoll hie2 hsome, hsuf_space]
    unfold memValueChecks
    rw [hm, Option.some_bind]
    rw [if_pos ⟨rfl, by
      cases suf
      · exact absurd rfl hsne
      · simp⟩]
  · intro h2
    have hcore := strtoll64Core_digits_neg hne hds
      (show ([] : List Char).takeWhile qos_isdigit = [] from rfl)
    rw [List.append_nil] at hcore
    have hie3 : ('-' :: ds).isEmpty = false := rfl
    have hcast : (2 : Int) ≤ (digitsToNat ds : Int) := by exact_mod_cast h2
    by_cases hun : -(digitsToNat ds : Int) < INT64_MIN
    · have hnone : strtoll64 ('-' :: ds) = none := by
        rw [strtoll64_minus, hcore, if_pos hun]
      exact qos_parse_memory_value_eq_none_of_strtoll hie3 hnone
    · have hsome : strtoll64 ('-' :: ds) = some (-(digitsToNat ds : Int), []) := by
        rw [strtoll64_minus, hcore, if_neg hun]
      rw [qos_parse_memory_value_eq_of_strtoll hie3 hsome]
      unfold memValueChecks
      rw [show suffixMult ([].dropWhile qos_isspace) = some 1 from rfl,
        Option.some_bind]
      rw [if_neg (by rintro ⟨-, h⟩; exact h rfl)]
      rw [if_pos (by omega)]

/-- Claim C6, counterexample: a literal with no suffix is NOT interpreted as
kilobytes — `"64"` parses to 64 (bytes, multiplier 1) while `"64kB"` parses
to 65536; and the parser does not accept every signed decimal integer:
`"-5"` is rejected. -/
theorem memory_parser_counterexample :
    qos_parse_memory_value "64".toList = some 64 ∧
    qos_parse_memory_value "64kB".toList = some 65536 ∧
    some (64 : Int) ≠ some ((64 : Int) * 1024) ∧
    qos_parse_memory_value "-5".toList = none := by
  refine ⟨by decide, by decide, by decide, by decide⟩

/-- Witness for `memory_parser_contract` at concrete inputs. -/
theorem memory_parser_contract_witness :
    qos_parse_memory_value ("64".toList ++ "mb".toList) = some 67108864 ∧
    qos_parse_memory_value ('-' :: '1' :: "kb".toList) = none := by
  have h := memory_parser_contract "64".toList "mb".toList (1024 * 1024)
    (by decide) (by decide) (by decide)
  exact ⟨by rw [h.1]; decide, h.2.1 (by decide)⟩

/-! ## Claim C10: `qos.enabled` short-circuits `apply_value` -/

/-- Claim C10: for every limits pointer, every value (including `NULL` and
malformed text) and both strict and non-strict mode,
`qos_apply_qos_param_value` on the name `qos.enabled` returns success and
leaves the limits struct untouched: the value is never parsed. -/
theorem qos_enabled_apply_value (L : Option QoSLimits) (v : Option (List Char))
    (strict : Bool) :
    qos_apply_qos_param_value L (some "qos.enabled".toList) v strict =
      .ok L true := by
  show qos_apply_qos_param_value_named L "qos.enabled".toList v strict = .ok L true
  unfold qos_apply_qos_param_value_named
  rw [if_neg (by decide), if_neg (by decide), if_pos rfl]

lemma epoch_check_cached_false {c : SessionCache} {ep : Option Int}
    (hc : c.limits_cached = false) :
    (qos_refresh_epoch_check c ep).limits_cached = false := by
  cases ep with
  | none => exact hc
  | some e =>
    show (if c.last_seen_epoch ≠ e then
        ({ c with limits_cached := false, last_seen_epoch := e } : SessionCache)
      else c).limits_cached = false
    by_cases h : c.last_seen_epoch ≠ e
    · rw [if_pos h]
    · rw [if_neg h]; exact hc

lemma epoch_check_limits {c : SessionCache} {ep : Option Int} :
    (qos_refresh_epoch_check c ep).cached_limits = c.cached_limits := by
  cases ep with
  | none => rfl
  | some e =>
    show (if c.last_seen_epoch ≠ e then
        ({ c with limits_cached := false, last_seen_epoch := e } : SessionCache)
      else c).cached_limits = c.cached_limits
    by_cases h : c.last_seen_epoch ≠ e
    · rw [if_pos h]
    · rw [if_neg h]

/-! ## Claim C2: the most-restrictive fold -/

/-- Claim C2 (amended): when the session-cache refresh recomputes (here:
the cache is invalid), each of the seven integer limit fields of the
effective struct is the most-restrictive fold of the role-scoped and
database-scoped structs — the minimum when both scopes have the field set
(`≥ 0`), the set value when exactly one is set, and `-1` when neither is.
The eighth field, `work_mem_error_level`, is NOT folded: the refresh leaves
it at whatever the cache held before. -/
theorem effective_limits_fold (c : SessionCache) (ep : Option Int) (u d : Nat)
    (rl dl : QoSLimits) (r dd : Int) (hc : c.limits_cached = false) :
    ((qos_refresh_cached_limits c ep u d rl dl).cached_limits.work_mem_limit =
        calc_limit rl.work_mem_limit dl.work_mem_limit ∧
      (qos_refresh_cached_limits c ep u d rl dl).cached_limits.cpu_core_limit =
        calc_limit rl.cpu_core_limit dl.cpu_core_limit ∧
      (qos_refresh_cached_limits c ep u d rl dl).cached_limits.max_concurrent_tx =
        calc_limit rl.max_concurrent_tx dl.max_concurrent_tx ∧
      (qos_refresh_cached_limits c ep u d rl dl).cached_limits.max_concurrent_select =
        calc_limit rl.max_concurrent_select dl.max_concurrent_select ∧
      (qos_refresh_cached_limits c ep u d rl dl).cached_limits.max_concurrent_update =
        calc_limit rl.max_concurrent_update dl.max_concurrent_update ∧
      (qos_refresh_cached_limits c ep u d rl dl).cached_limits.max_concurrent_delete =
        calc_limit rl.max_concurrent_delete dl.max_concurrent_delete ∧
      (qos_refresh_cached_limits c ep u d rl dl).cached_limits.max_concurrent_insert =
        calc_limit rl.max_concurrent_insert dl.max_concurrent_insert) ∧
    (qos_refresh_cached_limits c ep u d rl dl).cached_limits.work_mem_error_level =
      c.cached_limits.work_mem_error_level ∧
    (0 ≤ r → 0 ≤ dd → calc_limit r dd = min r dd) ∧
    (0 ≤ r → dd < 0 → calc_limit r dd = r) ∧
    (r < 0 → 0 ≤ dd → calc_limit r dd = dd) ∧
    (r < 0 → dd < 0 → calc_limit r dd = -1) := by
  have h1 := @epoch_check_cached_false c ep hc
  have hrw : qos_refresh_cached_limits c ep u d rl dl =
      qos_refresh_recompute (qos_refresh_epoch_check c ep) u d rl dl := by
    unfold qos_refresh_cached_limits
    rw [if_neg (by rintro ⟨h, -⟩; rw [h1] at h; exact Bool.false_ne_true h)]
  refine ⟨?_, ?_, ?_, ?_, ?_, ?_⟩
  · rw [hrw]
    exact ⟨rfl, rfl, rfl, rfl, rfl, rfl, rfl⟩
  · rw [hrw]
    show (qos_refresh_epoch_check c ep).cached_limits.work_mem_error_level =
      c.cached_limits.work_mem_error_level
    rw [epoch_check_limits]
  · intro hr hd
    unfold calc_limit
    rw [if_pos ⟨hr, hd⟩]
  · intro hr hd
    unfold calc_limit
    rw [if_neg (by rintro ⟨-, h⟩; omega), if_pos hr]
  · intro hr hd
    unfold calc_limit
    rw [if_neg (by rintro ⟨h, -⟩; omega), if_neg (by omega), if_pos hd]
  · intro hr hd
    unfold calc_limit
    rw [if_neg (by rintro ⟨h, -⟩; omega), if_neg (by omega), if_neg (by omega)]

/-- Claim C2, counterexample: the fold does not cover every field of the
struct.  With the role scope having `work_mem_error_level` set to 1
(`error`) and the database scope unset, the claimed fold value is 1, but
the refresh leaves the cache's zero-initialized value 0 in place. -/
theorem effective_limits_fold_counterexample :
    (qos_refresh_cached_limits initialSessionCache none 1 1
        { allUnsetLimits with work_mem_error_level := 1 }
        allUnsetLimits).cached_limits.work_mem_error_level = 0 ∧
    calc_limit 1 (-1) = 1 ∧ (0 : Int) ≠ 1 := by
  refine ⟨by decide, by decide, by decide⟩

/-- Witness for `effective_limits_fold` at concrete inputs. -/
theorem effective_limits_fold_witness :
    ((qos_refresh_cached_limits initialSessionCache (some 3) 1 2
        { allUnsetLimits with max_concurrent_tx := 10 }
        { allUnsetLimits with max_concurrent_tx := 3 }).cached_limits.max_concurrent_tx =
      calc_limit 10 3) ∧ calc_limit 10 3 = min 10 3 := by
  have h := effective_limits_fold initialSessionCache (some 3) 1 2
    { allUnsetLimits with max_concurrent_tx := 10 }
    { allUnsetLimits with max_concurrent_tx := 3 } 10 3 rfl
  exact ⟨h.1.2.2.1, h.2.2.1 (by decide) (by decide)⟩

lemma gathersLE_adjust (p : Plan) (m : Int) :
    gathersLE (qos_adjust_parallel_workers p m) m = true := by
  induction p with
  | nullPlan => rfl
  | gather w l r ihl ihr =>
    unfold qos_adjust_parallel_workers gathersLE
    rw [ihl, ihr]
    by_cases h : m < w
    · simp [h]
    · simp [h, not_lt.mp h]
  | gatherMerge w l r ihl ihr =>
    unfold qos_adjust_parallel_workers gathersLE
    rw [ihl, ihr]
    by_cases h : m < w
    · simp [h]
    · simp [h, not_lt.mp h]
  | otherNode l r ihl ihr =>
    unfold qos_adjust_parallel_workers gathersLE
    rw [ihl, ihr]
    rfl

lemma qos_new_max_workers_eq {c : Int} (h : 0 < c) :
    qos_new_max_workers c = max 0 (c - 1) := by
  unfold qos_new_max_workers
  by_cases h2 : 1 < c
  · rw [if_pos h2]; omega
  · rw [if_neg h2]; omega

/-! ## Claim C5: the planner clamp -/

/-- Claim C5 (amended): with effective `cpu_core_limit = C > 0`, every
Gather / Gather Merge node in the main plan tree ends with
`num_workers ≤ max 0 (C - 1)` PROVIDED the plan has `parallelModeNeeded`
set (the hook skips the main tree otherwise); every node in every subplan
is clamped unconditionally; and when `C` is unset (`-1`) or `0` the plan is
left completely unchanged. -/
theorem planner_clamp (limits : QoSLimits) (result : PlannedStmt')
    (h1 : 0 < limits.cpu_core_limit) :
    (result.parallelModeNeeded = true →
      gathersLE (qos_planner_rewrite true limits result).planTree
        (max 0 (limits.cpu_core_limit - 1)) = true) ∧
    (∀ sp ∈ (qos_planner_rewrite true limits result).subplans,
      gathersLE sp (max 0 (limits.cpu_core_limit - 1)) = true) ∧
    (∀ (L : QoSLimits) (r : PlannedStmt'), L.cpu_core_limit ≤ 0 →
      qos_planner_rewrite true L r = r) := by
  have henter : (true = true ∧ 0 < limits.cpu_core_limit) := ⟨rfl, h1⟩
  refine ⟨?_, ?_, ?_⟩
  · intro hp
    unfold qos_planner_rewrite
    rw [if_pos henter]
    show gathersLE
      (if result.parallelModeNeeded ∧ result.planTree ≠ .nullPlan then
        qos_adjust_parallel_workers result.planTree
          (qos_new_max_workers limits.cpu_core_limit)
      else result.planTree) _ = true
    by_cases hnull : result.planTree = .nullPlan
    · rw [if_neg (by rintro ⟨-, h⟩; exact h hnull), hnull]
      rfl
    · rw [if_pos ⟨by rw [hp], hnull⟩, ← qos_new_max_workers_eq h1]
      exact gathersLE_adjust _ _
  · intro sp hsp
    unfold qos_planner_rewrite at hsp
    rw [if_pos henter] at hsp
    simp only [List.mem_map] at hsp
    obtain ⟨q, -, rfl⟩ := hsp
    rw [← qos_new_max_workers_eq h1]
    exact gathersLE_adjust _ _
  · intro L r hL
    unfold qos_planner_rewrite
    rw [if_neg (by rintro ⟨-, h⟩; omega)]

/-- Claim C5, counterexample: with `cpu_core_limit = 2` but
`parallelModeNeeded = false`, a Gather node with 8 workers in the main plan
tree survives the hook unclamped, violating the claimed bound
`max 0 (2 - 1) = 1`. -/
theorem planner_clamp_counterexample :
    (qos_planner_rewrite true { allUnsetLimits with cpu_core_limit := 2 }
        ⟨false, .gather 8 .nullPlan .nullPlan, []⟩).planTree =
      .gather 8 .nullPlan .nullPlan ∧
    gathersLE (.gather 8 .nullPlan .nullPlan) (max 0 ((2 : Int) - 1)) = false := by
  refine ⟨by decide, by decide⟩

/-- Witness for `planner_clamp` at concrete inputs. -/
theorem planner_clamp_witness :
    gathersLE
      (qos_planner_rewrite true { allUnsetLimits with cpu_core_limit := 2 }
        ⟨true, .gather 8 .nullPlan .nullPlan, []⟩).planTree
      (max 0 ((2 : Int) - 1)) = true ∧
    qos_planner_rewrite true allUnsetLimits
      ⟨true, .gather 8 .nullPlan .nullPlan, []⟩ =
      ⟨true, .gather 8 .nullPlan .nullPlan, []⟩ := by
  have h := planner_clamp { allUnsetLimits with cpu_core_limit := 2 }
    ⟨true, .gather 8 .nullPlan .nullPlan, []⟩ (by decide)
  exact ⟨h.1 rfl, h.2.2 allUnsetLimits _ (by decide)⟩

/-! ## Counting lemmas for the admission scans -/

lemma filter_update_eq {n : Nat} (f : Fin n → QoSBackendStatus) (i : Fin n)
    (x : QoSBackendStatus) (p : QoSBackendStatus → Bool) :
    (Finset.univ.filter fun j => p (Function.update f i x j) = true) =
      if p x = true then
        insert i ((Finset.univ.filter fun j => p (f j) = true).erase i)
      else (Finset.univ.filter fun j => p (f j) = true).erase i := by
  ext j
  simp only [Finset.mem_filter, Finset.mem_univ, true_and]
  by_cases hj : j = i
  · subst hj
    rw [Function.update_same]
    by_cases hx : p x = true
    · simp [hx]
    · simp [hx, Finset.mem_erase]
  · rw [Function.update_noteq hj]
    by_cases hx : p x = true
    · simp [hx, Finset.mem_insert, Finset.mem_erase, hj]
    · simp [hx, Finset.mem_erase, hj]

/-- Updating a slot that matched before and matches after leaves the match
count unchanged. -/
lemma card_update_match_match {n : Nat} (p : QoSBackendStatus → Bool)
    (f : Fin n → QoSBackendStatus) (i : Fin n) (x : QoSBackendStatus)
    (hold : p (f i) = true) (hnew : p x = true) :
    (Finset.univ.filter fun j => p (Function.update f i x j) = true).card =
      (Finset.univ.filter fun j => p (f j) = true).card := by
  rw [filter_update_eq, if_pos hnew]
  have hmem : i ∈ (Finset.univ.filter fun j => p (f j) = true) := by
    simp [hold]
  rw [Finset.card_insert_of_not_mem (Finset.not_mem_erase i _),
    Finset.card_erase_of_mem hmem]
  have : 1 ≤ (Finset.univ.filter fun j => p (f j) = true).card :=
    Finset.card_pos.mpr ⟨i, hmem⟩
  omega

/-- Registering a previously non-matching slot raises the match count by
exactly one. -/
lemma card_update_nomatch_match {n : Nat} (p : QoSBackendStatus → Bool)
    (f : Fin n → QoSBackendStatus) (i : Fin n) (x : QoSBackendStatus)
    (hold : p (f i) = false) (hnew : p x = true) :
    (Finset.univ.filter fun j => p (Function.update f i x j) = true).card =
      (Finset.univ.filter fun j => p (f j) = true).card + 1 := by
  rw [filter_update_eq, if_pos hnew]
  have hnm : i ∉ (Finset.univ.filter fun j => p (f j) = true) := by
    simp [hold]
  rw [Finset.erase_eq_of_not_mem hnm,
    Finset.card_insert_of_not_mem hnm]

/-- Writing a non-matching value can only shrink the match count. -/
lemma card_update_nomatch_le {n : Nat} (p : QoSBackendStatus → Bool)
    (f : Fin n → QoSBackendStatus) (i : Fin n) (x : QoSBackendStatus)
    (hnew : p x = false) :
    (Finset.univ.filter fun j => p (Function.update f i x j) = true).card ≤
      (Finset.univ.filter fun j => p (f j) = true).card := by
  rw [filter_update_eq, if_neg (by simp [hnew])]
  exact Finset.card_erase_le

/-- Writing a value whose match status agrees with the old one leaves the
count unchanged. -/
lemma card_update_same_match {n : Nat} (p : QoSBackendStatus → Bool)
    (f : Fin n → QoSBackendStatus) (i : Fin n) (x : QoSBackendStatus)
    (h : p x = p (f i)) :
    (Finset.univ.filter fun j => p (Function.update f i x j) = true).card =
      (Finset.univ.filter fun j => p (f j) = true).card := by
  cases hx : p x with
  | true => exact card_update_match_match p f i x (hx ▸ h.symm) hx
  | false =>
    rw [filter_update_eq, if_neg (by simp [hx])]
    have hnm : i ∉ (Finset.univ.filter fun j => p (f j) = true) := by
      simp [← h, hx]
    rw [Finset.erase_eq_of_not_mem hnm]

/-- When the scanning backend's own slot does not match, the peer count of
the statement scan equals the full match count. -/
lemma peerCountStmt_eq_matchCount {n : Nat} {s : QoSSharedState n}
    {me : Fin n} {r d : Nat} {k : CmdType}
    (hself : statusMatchesStmt (s.backend_status me) r d k = false) :
    peerCountStmt s me r d k = stmtMatchCount s r d k := by
  unfold peerCountStmt stmtMatchCount
  congr 1
  ext j
  simp only [Finset.mem_filter, Finset.mem_univ, true_and]
  constructor
  · rintro ⟨-, h⟩; exact h
  · intro h
    refine ⟨?_, h⟩
    rintro rfl
    rw [hself] at h
    exact Bool.false_ne_true h

/-- When the scanning backend's own slot does not match, the peer count of
the transaction scan equals the full match count. -/
lemma peerCountTx_eq_matchCount {n : Nat} {s : QoSSharedState n}
    {me : Fin n} {r d : Nat}
    (hself : statusMatchesTx (s.backend_status me) r d = false) :
    peerCountTx s me r d = txMatchCount s r d := by
  unfold peerCountTx txMatchCount
  congr 1
  ext j
  simp only [Finset.mem_filter, Finset.mem_univ, true_and]
  constructor
  · rintro ⟨-, h⟩; exact h
  · intro h
    refine ⟨?_, h⟩
    rintro rfl
    rw [hself] at h
    exact Bool.false_ne_true h

/-! ## Branch characterizations of the tracking calls -/

/-- Every call of `qos_track_statement_start` with a live shared region
either leaves everything unchanged, or rejects (bumping only the
statistics and reporting the scanned peer count against the configured
limit), or registers this backend's slot after a scan that came in under
the limit. -/
lemma stmt_start_cases (en : Bool) (s : QoSSharedState n) (b : BackendLocal)
    (me : Fin n) (limits : QoSLimits) (op : CmdType) :
    qos_track_statement_start en (some s) b me limits op = ⟨some s, b, none⟩ ∨
    (∃ lim, stmtLimit limits op = some lim ∧ 0 < lim ∧
      lim ≤ (peerCountStmt s me b.role_oid b.database_oid op : Int) ∧
      qos_track_statement_start en (some s) b me limits op =
        ⟨some { s with stats := bumpStmtViolation s.stats op }, b,
         some { code := .programLimitExceeded
                message := "qos: maximum concurrent " ++ stmtKindWord op ++
                  " statements exceeded"
                detail := currentMaxDetail
                  (peerCountStmt s me b.role_oid b.database_oid op) lim
                hint := "Wait for other queries to complete" }⟩) ∨
    (∃ lim, stmtLimit limits op = some lim ∧ b.statement_tracked = false ∧
      (lim ≤ 0 ∨ (peerCountStmt s me b.role_oid b.database_oid op : Int) < lim) ∧
      qos_track_statement_start en (some s) b me limits op =
        ⟨some { s with backend_status :=
                         Function.update s.backend_status me
                           { pid := b.pid
                             role_oid := b.role_oid
                             database_oid := b.database_oid
                             cmd_type := op
                             in_transaction :=
                               (s.backend_status me).in_transaction } },
         { b with statement_tracked := true, current_statement_type := op },
         none⟩) := by
  by_cases hg : (¬en = true ∨ b.statement_tracked = true)
  · left
    unfold qos_track_statement_start
    rw [if_pos hg]
  · have hb : b.statement_tracked = false := by
      obtain ⟨-, htr⟩ := not_or.mp hg
      revert htr
      cases b.statement_tracked <;> simp
    cases op
    · left
      unfold qos_track_statement_start
      rw [if_neg hg]
      rfl
    ·
      by_cases hrej : 0 < limits.max_concurrent_select ∧
          limits.max_concurrent_select ≤
            (peerCountStmt s me b.role_oid b.database_oid .select : Int)
      · refine Or.inr (Or.inl ⟨limits.max_concurrent_select, rfl, hrej.1, hrej.2, ?_⟩)
        have heq : qos_track_statement_start en (some s) b me limits .select =
            qos_track_statement_start_core s b me limits.max_concurrent_select .select := by
          unfold qos_track_statement_start
          rw [if_neg hg]
          rfl
        rw [heq]
        unfold qos_track_statement_start_core
        rw [if_pos hrej]
      · refine Or.inr (Or.inr ⟨limits.max_concurrent_select, rfl, hb, ?_, ?_⟩)
        · rcases not_and_or.mp hrej with h | h
          · exact Or.inl (not_lt.mp h)
          · exact Or.inr (not_le.mp h)
        · have heq : qos_track_statement_start en (some s) b me limits .select =
              qos_track_statement_start_core s b me limits.max_concurrent_select .select := by
            unfold qos_track_statement_start
            rw [if_neg hg]
            rfl
          rw [heq]
          unfold qos_track_statement_start_core
          rw [if_neg hrej]
    ·
      by_cases hrej : 0 < limits.max_concurrent_update ∧
          limits.max_concurrent_update ≤
            (peerCountStmt s me b.role_oid b.database_oid .update : Int)
      · refine Or.inr (Or.inl ⟨limits.max_concurrent_update, rfl, hrej.1, hrej.2, ?_⟩)
        have heq : qos_track_statement_start en (some s) b me limits .update =
            qos_track_statement_start_core s b me limits.max_concurrent_update .update := by
          unfold qos_track_statement_start
          rw [if_neg hg]
          rfl
        rw [heq]
        unfold qos_track_statement_start_core
        rw [if_pos hrej]
      · refine Or.inr (Or.inr ⟨limits.max_concurrent_update, rfl, hb, ?_, ?_⟩)
        · rcases not_and_or.mp hrej with h | h
          · exact Or.inl (not_lt.mp h)
          · exact Or.inr (not_le.mp h)
        · have heq : qos_track_statement_start en (some s) b me limits .update =
              qos_track_statement_start_core s b me limits.max_concurrent_update .update := by
            unfold qos_track_statement_start
            rw [if_neg hg]
            rfl
          rw [heq]
          unfold qos_track_statement_start_core
          rw [if_neg hrej]
    ·
      by_cases hrej : 0 < limits.max_concurrent_delete ∧
          limits.max_concurrent_delete ≤
            (peerCountStmt s me b.role_oid b.database_oid .delete : Int)
      · refine Or.inr (Or.inl ⟨limits.max_concurrent_delete, rfl, hrej.1, hrej.2, ?_⟩)
        have heq : qos_track_statement_start en (some s) b me limits .delete =
            qos_track_statement_start_core s b me limits.max_concurrent_delete .delete := by
          unfold qos_track_statement_start
          rw [if_neg hg]
          rfl
        rw [heq]
        unfold qos_track_statement_start_core
        rw [if_pos hrej]
      · refine Or.inr (Or.inr ⟨limits.max_concurrent_delete, rfl, hb, ?_, ?_⟩)
        · rcases not_and_or.mp hrej with h | h
          · exact Or.inl (not_lt.mp h)
          · exact Or.inr (not_le.mp h)
        · have heq : qos_track_statement_start en (some s) b me limits .delete =
              qos_track_statement_start_core s b me limits.max_concurrent_delete .delete := by
            unfold qos_track_statement_start
            rw [if_neg hg]
            rfl
          rw [heq]
          unfold qos_track_statement_start_core
          rw [if_neg hrej]
    ·
      by_cases hrej : 0 < limits.max_concurrent_insert ∧
          limits.max_concurrent_insert ≤
            (peerCountStmt s me b.role_oid b.database_oid .insert : Int)
      · refine Or.inr (Or.inl ⟨limits.max_concurrent_insert, rfl, hrej.1, hrej.2, ?_⟩)
        have heq : qos_track_statement_start en (some s) b me limits .insert =
            qos_track_statement_start_core s b me limits.max_concurrent_insert .insert := by
          unfold qos_track_statement_start
          rw [if_neg hg]
          rfl
        rw [heq]
        unfold qos_track_statement_start_core
        rw [if_pos hrej]
      · refine Or.inr (Or.inr ⟨limits.max_concurrent_insert, rfl, hb, ?_, ?_⟩)
        · rcases not_and_or.mp hrej with h | h
          · exact Or.inl (not_lt.mp h)
          · exact Or.inr (not_le.mp h)
        · have heq : qos_track_statement_start en (some s) b me limits .insert =
              qos_track_statement_start_core s b me limits.max_concurrent_insert .insert := by
            unfold qos_track_statement_start
            rw [if_neg hg]
            rfl
          rw [heq]
          unfold qos_track_statement_start_core
          rw [if_neg hrej]

/-- The reject-branch existentials of `stmt_start_cases` spelled with the
literal error: the form taken when the statement limit check fires. -/
lemma tx_start_cases (en : Bool) (s : QoSSharedState n) (b : BackendLocal)
    (me : Fin n) (limits : QoSLimits) :
    qos_track_transaction_start en (some s) b me limits = ⟨some s, b, none⟩ ∨
    (0 < limits.max_concurrent_tx ∧
      limits.max_concurrent_tx ≤
        (peerCountTx s me b.role_oid b.database_oid : Int) ∧
      qos_track_transaction_start en (some s) b me limits =
        ⟨some { s with stats := bumpTxViolation s.stats }, b,
         some { code := .programLimitExceeded
                message := "qos: maximum concurrent transactions exceeded"
                detail := currentMaxDetail
                  (peerCountTx s me b.role_oid b.database_oid)
                  limits.max_concurrent_tx
                hint := "Wait for other transactions to complete" }⟩) ∨
    (0 < limits.max_concurrent_tx ∧ b.transaction_tracked = false ∧
      (peerCountTx s me b.role_oid b.database_oid : Int) <
        limits.max_concurrent_tx ∧
      qos_track_transaction_start en (some s) b me limits =
        ⟨some { s with backend_status :=
                         Function.update s.backend_status me
                           { pid := b.pid
                             role_oid := b.role_oid
                             database_oid := b.database_oid
                             cmd_type := (s.backend_status me).cmd_type
                             in_transaction := true } },
         { b with transaction_tracked := true }, none⟩) := by
  by_cases hg : (¬en = true ∨ b.transaction_tracked = true)
  · left
    unfold qos_track_transaction_start
    rw [if_pos hg]
  · have hb : b.transaction_tracked = false := by
      obtain ⟨-, htr⟩ := not_or.mp hg
      revert htr
      cases b.transaction_tracked <;> simp
    have heq : qos_track_transaction_start en (some s) b me limits =
        qos_track_transaction_start_core s b me limits := by
      unfold qos_track_transaction_start
      rw [if_neg hg]
    by_cases hpos : 0 < limits.max_concurrent_tx
    · by_cases hrej : limits.max_concurrent_tx ≤
          (peerCountTx s me b.role_oid b.database_oid : Int)
      · refine Or.inr (Or.inl ⟨hpos, hrej, ?_⟩)
        rw [heq]
        unfold qos_track_transaction_start_core
        rw [if_pos hpos, if_pos hrej]
      · refine Or.inr (Or.inr ⟨hpos, hb, not_le.mp hrej, ?_⟩)
        rw [heq]
        unfold qos_track_transaction_start_core
        rw [if_pos hpos, if_neg hrej]
    · left
      rw [heq]
      unfold qos_track_transaction_start_core
      rw [if_neg hpos]

/-- Branches of `qos_track_statement_end` with a live shared region. -/
lemma stmt_end_cases (en : Bool) (s : QoSSharedState n) (b : BackendLocal)
    (me : Fin n) :
    qos_track_statement_end en (some s) b me = ⟨some s, b, none⟩ ∨
    ((s.backend_status me).pid = b.pid ∧
      qos_track_statement_end en (some s) b me =
        ⟨some { s with backend_status :=
                         Function.update s.backend_status me
                           { s.backend_status me with cmd_type := .unknown } },
         { b with statement_tracked := false,
                  current_statement_type := .unknown }, none⟩) ∨
    ((s.backend_status me).pid ≠ b.pid ∧
      qos_track_statement_end en (some s) b me =
        ⟨some s,
         { b with statement_tracked := false,
                  current_statement_type := .unknown }, none⟩) := by
  by_cases hg : (¬en = true ∨ ¬b.statement_tracked = true)
  · left
    unfold qos_track_statement_end
    rw [if_pos hg]
  · have heq : qos_track_statement_end en (some s) b me =
        qos_track_statement_end_core s b me := by
      unfold qos_track_statement_end
      rw [if_neg hg]
    by_cases hpid : (s.backend_status me).pid = b.pid
    · refine Or.inr (Or.inl ⟨hpid, ?_⟩)
      rw [heq]
      unfold qos_track_statement_end_core
      rw [if_pos hpid]
    · refine Or.inr (Or.inr ⟨hpid, ?_⟩)
      rw [heq]
      unfold qos_track_statement_end_core
      rw [if_neg hpid]

/-- Branches of `qos_track_transaction_end` with a live shared region. -/
lemma tx_end_cases (en : Bool) (s : QoSSharedState n) (b : BackendLocal)
    (me : Fin n) :
    qos_track_transaction_end en (some s) b me = ⟨some s, b, none⟩ ∨
    ((s.backend_status me).pid = b.pid ∧
      qos_track_transaction_end en (some s) b me =
        ⟨some { s with backend_status :=
                         Function.update s.backend_status me
                           { s.backend_status me with
                               in_transaction := false } },
         { b with transaction_tracked := false }, none⟩) ∨
    ((s.backend_status me).pid ≠ b.pid ∧
      qos_track_transaction_end en (some s) b me =
        ⟨some s, { b with transaction_tracked := false }, none⟩) := by
  by_cases hg : (¬en = true ∨ ¬b.transaction_tracked = true)
  · left
    unfold qos_track_transaction_end
    rw [if_pos hg]
  · have heq : qos_track_transaction_end en (some s) b me =
        qos_track_transaction_end_core s b me := by
      unfold qos_track_transaction_end
      rw [if_neg hg]
    by_cases hpid : (s.backend_status me).pid = b.pid
    · refine Or.inr (Or.inl ⟨hpid, ?_⟩)
      rw [heq]
      unfold qos_track_transaction_end_core
      rw [if_pos hpid]
    · refine Or.inr (Or.inr ⟨hpid, ?_⟩)
      rw [heq]
      unfold qos_track_transaction_end_core
      rw [if_neg hpid]

/-! ## Invariant preservation -/

lemma statusMatchesStmt_iff {st : QoSBackendStatus} {r d : Nat} {k : CmdType} :
    statusMatchesStmt st r d k = true ↔
      st.pid ≠ 0 ∧ st.role_oid = r ∧ st.database_oid = d ∧ st.cmd_type = k := by
  simp [statusMatchesStmt, and_assoc]

lemma statusMatchesTx_iff {st : QoSBackendStatus} {r d : Nat} :
    statusMatchesTx st r d = true ↔
      st.pid ≠ 0 ∧ st.role_oid = r ∧ st.database_oid = d ∧
        st.in_transaction = true := by
  simp [statusMatchesTx, and_assoc]

lemma stmtLimit_some_ne_unknown {L : QoSLimits} {k : CmdType} {lim : Int}
    (h : stmtLimit L k = some lim) : k ≠ CmdType.unknown := by
  rintro rfl
  simp [stmtLimit] at h

/-- `Inv` only looks at the backend-status array and the flags. -/
lemma inv_congr {cfg : Config n} {g g' : GState n}
    (hbs : g'.shared.backend_status = g.shared.backend_status)
    (hfl : g'.flags = g.flags) (h : Inv cfg g) : Inv cfg g' := by
  obtain ⟨h1, h2, h3, h4, h5, h6⟩ := h
  refine ⟨?_, ?_, ?_, ?_, ?_, ?_⟩
  · intro i; rw [hbs]; exact h1 i
  · intro i hf; rw [hfl] at hf; rw [hbs]; exact h2 i hf
  · intro i hf; rw [hfl] at hf; rw [hbs]; exact h3 i hf
  · intro i hp; rw [hbs] at hp ⊢; exact h4 i hp
  · intro r d k lim hk h1'
    have hc : stmtMatchCount g'.shared r d k = stmtMatchCount g.shared r d k := by
      unfold stmtMatchCount; rw [hbs]
    rw [hc]; exact h5 r d k lim hk h1'
  · intro r d
    have hc : txMatchCount g'.shared r d = txMatchCount g.shared r d := by
      unfold txMatchCount; rw [hbs]
    rw [hc]; exact h6 r d

lemma update_flags_self (cfg : Config n) (g : GState n) (i : Fin n) :
    Function.update g.flags i (flagsOf (mkLocal cfg i (g.flags i))) = g.flags := by
  have h : flagsOf (mkLocal cfg i (g.flags i)) = g.flags i := rfl
  rw [h, Function.update_eq_self]

lemma inv_doStmtStart (cfg : Config n) (g : GState n) (i : Fin n)
    (op : CmdType) (en : Bool) (h : Inv cfg g) :
    Inv cfg (doStmtStart cfg g i op en) := by
  rcases stmt_start_cases en g.shared (mkLocal cfg i (g.flags i)) i
      (cfg.limitsOf (cfg.role i) (cfg.db i)) op with
    heq | ⟨lim0, hk0, h00, hge0, heq⟩ | ⟨lim0, hk0, htrk, hlt, heq⟩
  · refine inv_congr ?_ ?_ h
    · unfold doStmtStart applyTrack; rw [heq]
      rfl
    · unfold doStmtStart applyTrack; rw [heq]
      exact update_flags_self cfg g i
  · refine inv_congr ?_ ?_ h
    · unfold doStmtStart applyTrack; rw [heq]
      rfl
    · unfold doStmtStart applyTrack; rw [heq]
      exact update_flags_self cfg g i
  · obtain ⟨h1, h2, h3, h4, h5, h6⟩ := h
    have hop : op ≠ CmdType.unknown := stmtLimit_some_ne_unknown hk0
    dsimp only [mkLocal] at htrk hlt
    have hcmdi : (g.shared.backend_status i).cmd_type = CmdType.unknown :=
      h2 i htrk
    have hold : statusMatchesStmt (g.shared.backend_status i)
        (cfg.role i) (cfg.db i) op = false := by
      cases hx : statusMatchesStmt (g.shared.backend_status i)
          (cfg.role i) (cfg.db i) op
      · rfl
      · exfalso
        obtain ⟨-, -, -, hcmd⟩ := statusMatchesStmt_iff.mp hx
        rw [hcmdi] at hcmd
        exact hop hcmd.symm
    have hstate : doStmtStart cfg g i op en =
        ⟨⟨g.shared.stats, g.shared.settings_epoch,
          Function.update g.shared.backend_status i
            ⟨cfg.pid i, cfg.role i, cfg.db i, op,
             (g.shared.backend_status i).in_transaction⟩⟩,
         Function.update g.flags i
           ⟨true, op, (g.flags i).transaction_tracked⟩⟩ := by
      unfold doStmtStart applyTrack; rw [heq]
      rfl
    rw [hstate]
    unfold Inv
    dsimp only
    refine ⟨?_, ?_, ?_, ?_, ?_, ?_⟩
    · intro j hp
      by_cases hj : j = i
      · subst hj
        rw [Function.update_same]
        exact ⟨rfl, rfl, rfl⟩
      · rw [Function.update_noteq hj] at hp ⊢
        exact h1 j hp
    · intro j hf
      by_cases hj : j = i
      · subst hj
        rw [Function.update_same] at hf
        simp at hf
      · rw [Function.update_noteq hj] at hf ⊢
        exact h2 j hf
    · intro j hf
      by_cases hj : j = i
      · subst hj
        rw [Function.update_same] at hf ⊢
        dsimp only at hf ⊢
        exact h3 j hf
      · rw [Function.update_noteq hj] at hf ⊢
        exact h3 j hf
    · intro j hp
      by_cases hj : j = i
      · subst hj
        rw [Function.update_same] at hp
        exact absurd hp (cfg.pid_ne j)
      · rw [Function.update_noteq hj] at hp ⊢
        exact h4 j hp
    · intro r d k lim hk h1'
      by_cases hmatch : statusMatchesStmt
          ⟨cfg.pid i, cfg.role i, cfg.db i, op,
           (g.shared.backend_status i).in_transaction⟩ r d k = true
      · rw [statusMatchesStmt_iff] at hmatch
        dsimp only at hmatch
        obtain ⟨-, rfl, rfl, rfl⟩ := hmatch
        have hmatch2 : statusMatchesStmt
            ⟨cfg.pid i, cfg.role i, cfg.db i, op,
             (g.shared.backend_status i).in_transaction⟩
            (cfg.role i) (cfg.db i) op = true :=
          statusMatchesStmt_iff.mpr ⟨cfg.pid_ne i, rfl, rfl, rfl⟩
        have hcount : stmtMatchCount
            (⟨g.shared.stats, g.shared.settings_epoch,
              Function.update g.shared.backend_status i
                ⟨cfg.pid i, cfg.role i, cfg.db i, op,
                 (g.shared.backend_status i).in_transaction⟩⟩ : QoSSharedState n)
            (cfg.role i) (cfg.db i) op =
            stmtMatchCount g.shared (cfg.role i) (cfg.db i) op + 1 := by
          unfold stmtMatchCount
          dsimp only
          exact card_update_nomatch_match
            (fun st => statusMatchesStmt st (cfg.role i) (cfg.db i) op)
            g.shared.backend_status i _ hold hmatch2
        have hlim : lim = lim0 := by
          rw [hk0] at hk
          exact (Option.some.inj hk).symm
        subst hlim
        rw [hcount]
        rcases hlt with hle | hlt
        · omega
        · have hpeer : peerCountStmt g.shared i (cfg.role i) (cfg.db i) op =
              stmtMatchCount g.shared (cfg.role i) (cfg.db i) op :=
            peerCountStmt_eq_matchCount hold
          rw [hpeer] at hlt
          push_cast
          omega
      · have hmf : statusMatchesStmt
            ⟨cfg.pid i, cfg.role i, cfg.db i, op,
             (g.shared.backend_status i).in_transaction⟩ r d k = false := by
          cases hx : statusMatchesStmt
              ⟨cfg.pid i, cfg.role i, cfg.db i, op,
               (g.shared.backend_status i).in_transaction⟩ r d k
          · rfl
          · exact absurd hx hmatch
        have hle : stmtMatchCount
            (⟨g.shared.stats, g.shared.settings_epoch,
              Function.update g.shared.backend_status i
                ⟨cfg.pid i, cfg.role i, cfg.db i, op,
                 (g.shared.backend_status i).in_transaction⟩⟩ : QoSSharedState n)
            r d k ≤ stmtMatchCount g.shared r d k := by
          unfold stmtMatchCount
          dsimp only
          exact card_update_nomatch_le
            (fun st => statusMatchesStmt st r d k)
            g.shared.backend_status i _ hmf
        calc (stmtMatchCount _ r d k : Int)
            ≤ (stmtMatchCount g.shared r d k : Int) := by exact_mod_cast hle
          _ ≤ lim := h5 r d k lim hk h1'
    · intro r d
      by_cases hmatch : statusMatchesTx
          ⟨cfg.pid i, cfg.role i, cfg.db i, op,
           (g.shared.backend_status i).in_transaction⟩ r d = true
      · rw [statusMatchesTx_iff] at hmatch
        dsimp only at hmatch
        obtain ⟨-, rfl, rfl, hin⟩ := hmatch
        have hpid : (g.shared.backend_status i).pid ≠ 0 := by
          intro h0
          have hin0 := (h4 i h0).2
          rw [hin0] at hin
          exact Bool.false_ne_true hin
        obtain ⟨-, hrole, hdb⟩ := h1 i hpid
        have hold2 : statusMatchesTx (g.shared.backend_status i)
            (cfg.role i) (cfg.db i) = true :=
          statusMatchesTx_iff.mpr ⟨hpid, hrole, hdb, hin⟩
        have hmatch2 : statusMatchesTx
            ⟨cfg.pid i, cfg.role i, cfg.db i, op,
             (g.shared.backend_status i).in_transaction⟩
            (cfg.role i) (cfg.db i) = true :=
          statusMatchesTx_iff.mpr ⟨cfg.pid_ne i, rfl, rfl, hin⟩
        have hcount : txMatchCount
            (⟨g.shared.stats, g.shared.settings_epoch,
              Function.update g.shared.backend_status i
                ⟨cfg.pid i, cfg.role i, cfg.db i, op,
                 (g.shared.backend_status i).in_transaction⟩⟩ : QoSSharedState n)
            (cfg.role i) (cfg.db i) =
            txMatchCount g.shared (cfg.role i) (cfg.db i) := by
          unfold txMatchCount
          dsimp only
          exact card_update_match_match
            (fun st => statusMatchesTx st (cfg.role i) (cfg.db i))
            g.shared.backend_status i _ hold2 hmatch2
        rw [hcount]
        exact h6 (cfg.role i) (cfg.db i)
      · have hmf : statusMatchesTx
            ⟨cfg.pid i, cfg.role i, cfg.db i, op,
             (g.shared.backend_status i).in_transaction⟩ r d = false := by
          cases hx : statusMatchesTx
              ⟨cfg.pid i, cfg.role i, cfg.db i, op,
               (g.shared.backend_status i).in_transaction⟩ r d
          · rfl
          · exact absurd hx hmatch
        have hle : txMatchCount
            (⟨g.shared.stats, g.shared.settings_epoch,
              Function.update g.shared.backend_status i
                ⟨cfg.pid i, cfg.role i, cfg.db i, op,
                 (g.shared.backend_status i).in_transaction⟩⟩ : QoSSharedState n)
            r d ≤ txMatchCount g.shared r d := by
          unfold txMatchCount
          dsimp only
          exact card_update_nomatch_le
            (fun st => statusMatchesTx st r d)
            g.shared.backend_status i _ hmf
        exact le_trans (by exact_mod_cast hle) (h6 r d)

lemma inv_doTxStart (cfg : Config n) (g : GState n) (i : Fin n)
    (en : Bool) (h : Inv cfg g) : Inv cfg (doTxStart cfg g i en) := by
  rcases tx_start_cases en g.shared (mkLocal cfg i (g.flags i)) i
      (cfg.limitsOf (cfg.role i) (cfg.db i)) with
    heq | ⟨hpos, hge0, heq⟩ | ⟨hpos, htrk, hlt, heq⟩
  · refine inv_congr ?_ ?_ h
    · unfold doTxStart applyTrack; rw [heq]
      rfl
    · unfold doTxStart applyTrack; rw [heq]
      exact update_flags_self cfg g i
  · refine inv_congr ?_ ?_ h
    · unfold doTxStart applyTrack; rw [heq]
      rfl
    · unfold doTxStart applyTrack; rw [heq]
      exact update_flags_self cfg g i
  · obtain ⟨h1, h2, h3, h4, h5, h6⟩ := h
    dsimp only [mkLocal] at htrk hlt
    have hin0 : (g.shared.backend_status i).in_transaction = false :=
      h3 i htrk
    have hstate : doTxStart cfg g i en =
        ⟨⟨g.shared.stats, g.shared.settings_epoch,
          Function.update g.shared.backend_status i
            ⟨cfg.pid i, cfg.role i, cfg.db i,
             (g.shared.backend_status i).cmd_type, true⟩⟩,
         Function.update g.flags i
           ⟨(g.flags i).statement_tracked,
            (g.flags i).current_statement_type, true⟩⟩ := by
      unfold doTxStart applyTrack; rw [heq]
      rfl
    rw [hstate]
    unfold Inv
    dsimp only
    refine ⟨?_, ?_, ?_, ?_, ?_, ?_⟩
    · intro j hp
      by_cases hj : j = i
      · subst hj
        rw [Function.update_same]
        exact ⟨rfl, rfl, rfl⟩
      · rw [Function.update_noteq hj] at hp ⊢
        exact h1 j hp
    · intro j hf
      by_cases hj : j = i
      · subst hj
        rw [Function.update_same] at hf ⊢
        dsimp only at hf ⊢
        exact h2 j hf
      · rw [Function.update_noteq hj] at hf ⊢
        exact h2 j hf
    · intro j hf
      by_cases hj : j = i
      · subst hj
        rw [Function.update_same] at hf
        simp at hf
      · rw [Function.update_noteq hj] at hf ⊢
        exact h3 j hf
    · intro j hp
      by_cases hj : j = i
      · subst hj
        rw [Function.update_same] at hp
        exact absurd hp (cfg.pid_ne j)
      · rw [Function.update_noteq hj] at hp ⊢
        exact h4 j hp
    · intro r d k lim hk h1'
      have hop : k ≠ CmdType.unknown := stmtLimit_some_ne_unknown hk
      by_cases hmatch : statusMatchesStmt
          ⟨cfg.pid i, cfg.role i, cfg.db i,
           (g.shared.backend_status i).cmd_type, true⟩ r d k = true
      · rw [statusMatchesStmt_iff] at hmatch
        dsimp only at hmatch
        obtain ⟨-, rfl, rfl, hcmd⟩ := hmatch
        have hpid : (g.shared.backend_status i).pid ≠ 0 := by
          intro h0
          have hc0 := (h4 i h0).1
          rw [hc0] at hcmd
          exact hop hcmd.symm
        obtain ⟨-, hrole, hdb⟩ := h1 i hpid
        have hold2 : statusMatchesStmt (g.shared.backend_status i)
            (cfg.role i) (cfg.db i) k = true :=
          statusMatchesStmt_iff.mpr ⟨hpid, hrole, hdb, hcmd⟩
        have hmatch2 : statusMatchesStmt
            ⟨cfg.pid i, cfg.role i, cfg.db i,
             (g.shared.backend_status i).cmd_type, true⟩
            (cfg.role i) (cfg.db i) k = true :=
          statusMatchesStmt_iff.mpr ⟨cfg.pid_ne i, rfl, rfl, hcmd⟩
        have hcount : stmtMatchCount
            (⟨g.shared.stats, g.shared.settings_epoch,
              Function.update g.shared.backend_status i
                ⟨cfg.pid i, cfg.role i, cfg.db i,
                 (g.shared.backend_status i).cmd_type, true⟩⟩ :
              QoSSharedState n)
            (cfg.role i) (cfg.db i) k =
            stmtMatchCount g.shared (cfg.role i) (cfg.db i) k := by
          unfold stmtMatchCount
          dsimp only
          exact card_update_match_match
            (fun st => statusMatchesStmt st (cfg.role i) (cfg.db i) k)
            g.shared.backend_status i _ hold2 hmatch2
        rw [hcount]
        exact h5 (cfg.role i) (cfg.db i) k lim hk h1'
      · have hmf : statusMatchesStmt
            ⟨cfg.pid i, cfg.role i, cfg.db i,
             (g.shared.backend_status i).cmd_type, true⟩ r d k = false := by
          cases hx : statusMatchesStmt
              ⟨cfg.pid i, cfg.role i, cfg.db i,
               (g.shared.backend_status i).cmd_type, true⟩ r d k
          · rfl
          · exact absurd hx hmatch
        have hle : stmtMatchCount
            (⟨g.shared.stats, g.shared.settings_epoch,
              Function.update g.shared.backend_status i
                ⟨cfg.pid i, cfg.role i, cfg.db i,
                 (g.shared.backend_status i).cmd_type, true⟩⟩ :
              QoSSharedState n)
            r d k ≤ stmtMatchCount g.shared r d k := by
          unfold stmtMatchCount
          dsimp only
          exact card_update_nomatch_le
            (fun st => statusMatchesStmt st r d k)
            g.shared.backend_status i _ hmf
        exact le_trans (by exact_mod_cast hle) (h5 r d k lim hk h1')
    · intro r d
      by_cases hmatch : statusMatchesTx
          ⟨cfg.pid i, cfg.role i, cfg.db i,
           (g.shared.backend_status i).cmd_type, true⟩ r d = true
      · rw [statusMatchesTx_iff] at hmatch
        dsimp only at hmatch
        obtain ⟨-, rfl, rfl, -⟩ := hmatch
        have hold : statusMatchesTx (g.shared.backend_status i)
            (cfg.role i) (cfg.db i) = false := by
          cases hx : statusMatchesTx (g.shared.backend_status i)
              (cfg.role i) (cfg.db i)
          · rfl
          · exfalso
            obtain ⟨-, -, -, hin⟩ := statusMatchesTx_iff.mp hx
            rw [hin0] at hin
            exact Bool.false_ne_true hin
        have hmatch2 : statusMatchesTx
            ⟨cfg.pid i, cfg.role i, cfg.db i,
             (g.shared.backend_status i).cmd_type, true⟩
            (cfg.role i) (cfg.db i) = true :=
          statusMatchesTx_iff.mpr ⟨cfg.pid_ne i, rfl, rfl, rfl⟩
        have hcount : txMatchCount
            (⟨g.shared.stats, g.shared.settings_epoch,
              Function.update g.shared.backend_status i
                ⟨cfg.pid i, cfg.role i, cfg.db i,
                 (g.shared.backend_status i).cmd_type, true⟩⟩ :
              QoSSharedState n)
            (cfg.role i) (cfg.db i) =
            txMatchCount g.shared (cfg.role i) (cfg.db i) + 1 := by
          unfold txMatchCount
          dsimp only
          exact card_update_nomatch_match
            (fun st => statusMatchesTx st (cfg.role i) (cfg.db i))
            g.shared.backend_status i _ hold hmatch2
        have hpeer : peerCountTx g.shared i (cfg.role i) (cfg.db i) =
            txMatchCount g.shared (cfg.role i) (cfg.db i) :=
          peerCountTx_eq_matchCount hold
        rw [hpeer] at hlt
        rw [hcount]
        push_cast
        have hfin : (txMatchCount g.shared (cfg.role i) (cfg.db i) : Int) + 1 ≤
            (cfg.limitsOf (cfg.role i) (cfg.db i)).max_concurrent_tx := by
          omega
        exact le_trans hfin (le_max_left _ _)
      · have hmf : statusMatchesTx
            ⟨cfg.pid i, cfg.role i, cfg.db i,
             (g.shared.backend_status i).cmd_type, true⟩ r d = false := by
          cases hx : statusMatchesTx
              ⟨cfg.pid i, cfg.role i, cfg.db i,
               (g.shared.backend_status i).cmd_type, true⟩ r d
          · rfl
          · exact absurd hx hmatch
        have hle : txMatchCount
            (⟨g.shared.stats, g.shared.settings_epoch,
              Function.update g.shared.backend_status i
                ⟨cfg.pid i, cfg.role i, cfg.db i,
                 (g.shared.backend_status i).cmd_type, true⟩⟩ :
              QoSSharedState n)
            r d ≤ txMatchCount g.shared r d := by
          unfold txMatchCount
          dsimp only
          exact card_update_nomatch_le
            (fun st => statusMatchesTx st r d)
            g.shared.backend_status i _ hmf
        exact le_trans (by exact_mod_cast hle) (h6 r d)

lemma inv_doStmtEnd (cfg : Config n) (g : GState n) (i : Fin n)
    (en : Bool) (h : Inv cfg g) : Inv cfg (doStmtEnd cfg g i en) := by
  obtain ⟨h1, h2, h3, h4, h5, h6⟩ := h
  rcases stmt_end_cases en g.shared (mkLocal cfg i (g.flags i)) i with
    heq | ⟨hpid, heq⟩ | ⟨hpid, heq⟩
  · refine inv_congr ?_ ?_ ⟨h1, h2, h3, h4, h5, h6⟩
    · unfold doStmtEnd applyTrack; rw [heq]
      rfl
    · unfold doStmtEnd applyTrack; rw [heq]
      exact update_flags_self cfg g i
  · have hstate : doStmtEnd cfg g i en =
        ⟨⟨g.shared.stats, g.shared.settings_epoch,
          Function.update g.shared.backend_status i
            ⟨(g.shared.backend_status i).pid,
             (g.shared.backend_status i).role_oid,
             (g.shared.backend_status i).database_oid, CmdType.unknown,
             (g.shared.backend_status i).in_transaction⟩⟩,
         Function.update g.flags i
           ⟨false, CmdType.unknown, (g.flags i).transaction_tracked⟩⟩ := by
      unfold doStmtEnd applyTrack; rw [heq]
      rfl
    rw [hstate]
    unfold Inv
    dsimp only
    refine ⟨?_, ?_, ?_, ?_, ?_, ?_⟩
    · intro j hp
      by_cases hj : j = i
      · subst hj
        rw [Function.update_same] at hp ⊢
        dsimp only at hp ⊢
        exact h1 j hp
      · rw [Function.update_noteq hj] at hp ⊢
        exact h1 j hp
    · intro j hf
      by_cases hj : j = i
      · subst hj
        rw [Function.update_same]
      · rw [Function.update_noteq hj] at hf ⊢
        exact h2 j hf
    · intro j hf
      by_cases hj : j = i
      · subst hj
        rw [Function.update_same] at hf ⊢
        dsimp only at hf ⊢
        exact h3 j hf
      · rw [Function.update_noteq hj] at hf ⊢
        exact h3 j hf
    · intro j hp
      by_cases hj : j = i
      · subst hj
        rw [Function.update_same] at hp ⊢
        dsimp only at hp ⊢
        exact ⟨rfl, (h4 j hp).2⟩
      · rw [Function.update_noteq hj] at hp ⊢
        exact h4 j hp
    · intro r d k lim hk h1'
      have hop : k ≠ CmdType.unknown := stmtLimit_some_ne_unknown hk
      have hmf : statusMatchesStmt
          ⟨(g.shared.backend_status i).pid,
           (g.shared.backend_status i).role_oid,
           (g.shared.backend_status i).database_oid, CmdType.unknown,
           (g.shared.backend_status i).in_transaction⟩ r d k = false := by
        cases hx : statusMatchesStmt
            ⟨(g.shared.backend_status i).pid,
             (g.shared.backend_status i).role_oid,
             (g.shared.backend_status i).database_oid, CmdType.unknown,
             (g.shared.backend_status i).in_transaction⟩ r d k
        · rfl
        · exfalso
          obtain ⟨-, -, -, hcmd⟩ := statusMatchesStmt_iff.mp hx
          exact hop hcmd.symm
      have hle : stmtMatchCount
          (⟨g.shared.stats, g.shared.settings_epoch,
            Function.update g.shared.backend_status i
              ⟨(g.shared.backend_status i).pid,
               (g.shared.backend_status i).role_oid,
               (g.shared.backend_status i).database_oid, CmdType.unknown,
               (g.shared.backend_status i).in_transaction⟩⟩ :
            QoSSharedState n)
          r d k ≤ stmtMatchCount g.shared r d k := by
        unfold stmtMatchCount
        dsimp only
        exact card_update_nomatch_le
          (fun st => statusMatchesStmt st r d k)
          g.shared.backend_status i _ hmf
      exact le_trans (by exact_mod_cast hle) (h5 r d k lim hk h1')
    · intro r d
      have hcount : txMatchCount
          (⟨g.shared.stats, g.shared.settings_epoch,
            Function.update g.shared.backend_status i
              ⟨(g.shared.backend_status i).pid,
               (g.shared.backend_status i).role_oid,
               (g.shared.backend_status i).database_oid, CmdType.unknown,
               (g.shared.backend_status i).in_transaction⟩⟩ :
            QoSSharedState n)
          r d = txMatchCount g.shared r d := by
        unfold txMatchCount
        dsimp only
        exact card_update_same_match
          (fun st => statusMatchesTx st r d)
          g.shared.backend_status i _ rfl
      rw [hcount]
      exact h6 r d
  · have hstate : doStmtEnd cfg g i en =
        ⟨g.shared,
         Function.update g.flags i
           ⟨false, CmdType.unknown, (g.flags i).transaction_tracked⟩⟩ := by
      unfold doStmtEnd applyTrack; rw [heq]
      rfl
    rw [hstate]
    dsimp only [mkLocal] at hpid
    unfold Inv
    dsimp only
    refine ⟨h1, ?_, ?_, h4, h5, h6⟩
    · intro j hf
      by_cases hj : j = i
      · subst hj
        have hp0 : (g.shared.backend_status j).pid = 0 := by
          by_contra hne
          exact hpid (h1 j hne).1
        exact (h4 j hp0).1
      · rw [Function.update_noteq hj] at hf
        exact h2 j hf
    · intro j hf
      by_cases hj : j = i
      · subst hj
        rw [Function.update_same] at hf
        dsimp only at hf
        exact h3 j hf
      · rw [Function.update_noteq hj] at hf
        exact h3 j hf

lemma inv_doTxEnd (cfg : Config n) (g : GState n) (i : Fin n)
    (en : Bool) (h : Inv cfg g) : Inv cfg (doTxEnd cfg g i en) := by
  obtain ⟨h1, h2, h3, h4, h5, h6⟩ := h
  rcases tx_end_cases en g.shared (mkLocal cfg i (g.flags i)) i with
    heq | ⟨hpid, heq⟩ | ⟨hpid, heq⟩
  · refine inv_congr ?_ ?_ ⟨h1, h2, h3, h4, h5, h6⟩
    · unfold doTxEnd applyTrack; rw [heq]
      rfl
    · unfold doTxEnd applyTrack; rw [heq]
      exact update_flags_self cfg g i
  · have hstate : doTxEnd cfg g i en =
        ⟨⟨g.shared.stats, g.shared.settings_epoch,
          Function.update g.shared.backend_status i
            ⟨(g.shared.backend_status i).pid,
             (g.shared.backend_status i).role_oid,
             (g.shared.backend_status i).database_oid,
             (g.shared.backend_status i).cmd_type, false⟩⟩,
         Function.update g.flags i
           ⟨(g.flags i).statement_tracked,
            (g.flags i).current_statement_type, false⟩⟩ := by
      unfold doTxEnd applyTrack; rw [heq]
      rfl
    rw [hstate]
    unfold Inv
    dsimp only
    refine ⟨?_, ?_, ?_, ?_, ?_, ?_⟩
    · intro j hp
      by_cases hj : j = i
      · subst hj
        rw [Function.update_same] at hp ⊢
        dsimp only at hp ⊢
        exact h1 j hp
      · rw [Function.update_noteq hj] at hp ⊢
        exact h1 j hp
    · intro j hf
      by_cases hj : j = i
      · subst hj
        rw [Function.update_same] at hf ⊢
        dsimp only at hf ⊢
        exact h2 j hf
      · rw [Function.update_noteq hj] at hf ⊢
        exact h2 j hf
    · intro j hf
      by_cases hj : j = i
      · subst hj
        rw [Function.update_same]
      · rw [Function.update_noteq hj] at hf ⊢
        exact h3 j hf
    · intro j hp
      by_cases hj : j = i
      · subst hj
        rw [Function.update_same] at hp ⊢
        dsimp only at hp ⊢
        exact ⟨(h4 j hp).1, rfl⟩
      · rw [Function.update_noteq hj] at hp ⊢
        exact h4 j hp
    · intro r d k lim hk h1'
      have hcount : stmtMatchCount
          (⟨g.shared.stats, g.shared.settings_epoch,
            Function.update g.shared.backend_status i
              ⟨(g.shared.backend_status i).pid,
               (g.shared.backend_status i).role_oid,
               (g.shared.backend_status i).database_oid,
               (g.shared.backend_status i).cmd_type, false⟩⟩ :
            QoSSharedState n)
          r d k = stmtMatchCount g.shared r d k := by
        unfold stmtMatchCount
        dsimp only
        exact card_update_same_match
          (fun st => statusMatchesStmt st r d k)
          g.shared.backend_status i _ rfl
      rw [hcount]
      exact h5 r d k lim hk h1'
    · intro r d
      have hmf : statusMatchesTx
          ⟨(g.shared.backend_status i).pid,
           (g.shared.backend_status i).role_oid,
           (g.shared.backend_status i).database_oid,
           (g.shared.backend_status i).cmd_type, false⟩ r d = false := by
        cases hx : statusMatchesTx
            ⟨(g.shared.backend_status i).pid,
             (g.shared.backend_status i).role_oid,
             (g.shared.backend_status i).database_oid,
             (g.shared.backend_status i).cmd_type, false⟩ r d
        · rfl
        · exfalso
          obtain ⟨-, -, -, hin⟩ := statusMatchesTx_iff.mp hx
          exact Bool.false_ne_true hin
      have hle : txMatchCount
          (⟨g.shared.stats, g.shared.settings_epoch,
            Function.update g.shared.backend_status i
              ⟨(g.shared.backend_status i).pid,
               (g.shared.backend_status i).role_oid,
               (g.shared.backend_status i).database_oid,
               (g.shared.backend_status i).cmd_type, false⟩⟩ :
            QoSSharedState n)
          r d ≤ txMatchCount g.shared r d := by
        unfold txMatchCount
        dsimp only
        exact card_update_nomatch_le
          (fun st => statusMatchesTx st r d)
          g.shared.backend_status i _ hmf
      exact le_trans (by exact_mod_cast hle) (h6 r d)
  · have hstate : doTxEnd cfg g i en =
        ⟨g.shared,
         Function.update g.flags i
           ⟨(g.flags i).statement_tracked,
            (g.flags i).current_statement_type, false⟩⟩ := by
      unfold doTxEnd applyTrack; rw [heq]
      rfl
    rw [hstate]
    dsimp only [mkLocal] at hpid
    unfold Inv
    dsimp only
    refine ⟨h1, ?_, ?_, h4, h5, h6⟩
    · intro j hf
      by_cases hj : j = i
      · subst hj
        rw [Function.update_same] at hf
        dsimp only at hf
        exact h2 j hf
      · rw [Function.update_noteq hj] at hf
        exact h2 j hf
    · intro j hf
      by_cases hj : j = i
      · subst hj
        have hp0 : (g.shared.backend_status j).pid = 0 := by
          by_contra hne
          exact hpid (h1 j hne).1
        exact (h4 j hp0).2
      · rw [Function.update_noteq hj] at hf
        exact h3 j hf

lemma inv_doExit (cfg : Config n) (g : GState n) (i : Fin n)
    (h : Inv cfg g) : Inv cfg (doExit cfg g i) := by
  obtain ⟨h1, h2, h3, h4, h5, h6⟩ := h
  unfold doExit
  unfold Inv
  dsimp only
  refine ⟨?_, ?_, ?_, ?_, ?_, ?_⟩
  · intro j hp
    by_cases hj : j = i
    · subst hj
      rw [Function.update_same] at hp
      exact absurd rfl hp
    · rw [Function.update_noteq hj] at hp ⊢
      exact h1 j hp
  · intro j hf
    by_cases hj : j = i
    · subst hj
      rw [Function.update_same]
      rfl
    · rw [Function.update_noteq hj] at hf ⊢
      exact h2 j hf
  · intro j hf
    by_cases hj : j = i
    · subst hj
      rw [Function.update_same]
      rfl
    · rw [Function.update_noteq hj] at hf ⊢
      exact h3 j hf
  · intro j hp
    by_cases hj : j = i
    · subst hj
      rw [Function.update_same]
      exact ⟨rfl, rfl⟩
    · rw [Function.update_noteq hj] at hp ⊢
      exact h4 j hp
  · intro r d k lim hk h1'
    have hle : stmtMatchCount
        (⟨g.shared.stats, g.shared.settings_epoch,
          Function.update g.shared.backend_status i emptySlot⟩ :
          QoSSharedState n)
        r d k ≤ stmtMatchCount g.shared r d k := by
      unfold stmtMatchCount
      dsimp only
      exact card_update_nomatch_le
        (fun st => statusMatchesStmt st r d k)
        g.shared.backend_status i emptySlot rfl
    exact le_trans (by exact_mod_cast hle) (h5 r d k lim hk h1')
  · intro r d
    have hle : txMatchCount
        (⟨g.shared.stats, g.shared.settings_epoch,
          Function.update g.shared.backend_status i emptySlot⟩ :
          QoSSharedState n)
        r d ≤ txMatchCount g.shared r d := by
      unfold txMatchCount
      dsimp only
      exact card_update_nomatch_le
        (fun st => statusMatchesTx st r d)
        g.shared.backend_status i emptySlot rfl
    exact le_trans (by exact_mod_cast hle) (h6 r d)

lemma inv_init (cfg : Config n) : Inv cfg (initGState n) := by
  unfold Inv initGState initSharedState
  dsimp only
  refine ⟨?_, ?_, ?_, ?_, ?_, ?_⟩
  · intro j hp
    exact absurd rfl hp
  · intro j _
    rfl
  · intro j _
    rfl
  · intro j _
    exact ⟨rfl, rfl⟩
  · intro r d k lim hk h1'
    have hz : stmtMatchCount
        (⟨zeroStats, 0, fun _ => emptySlot⟩ : QoSSharedState n) r d k = 0 := by
      unfold stmtMatchCount
      dsimp only
      rw [Finset.filter_eq_empty_iff.mpr]
      · exact Finset.card_empty
      · intro j _
        intro hx
        exact Bool.false_ne_true hx
    rw [hz]
    exact le_trans (by decide) h1'
  · intro r d
    have hz : txMatchCount
        (⟨zeroStats, 0, fun _ => emptySlot⟩ : QoSSharedState n) r d = 0 := by
      unfold txMatchCount
      dsimp only
      rw [Finset.filter_eq_empty_iff.mpr]
      · exact Finset.card_empty
      · intro j _
        intro hx
        exact Bool.false_ne_true hx
    rw [hz]
    exact le_max_right _ 0

lemma inv_step (cfg : Config n) {g g' : GState n} (hs : Step cfg g g')
    (h : Inv cfg g) : Inv cfg g' := by
  cases hs
  · exact inv_doStmtStart cfg g _ _ _ h
  · exact inv_doStmtEnd cfg g _ _ h
  · exact inv_doTxStart cfg g _ _ h
  · exact inv_doTxEnd cfg g _ _ h
  · exact inv_doExit cfg g _ h

lemma inv_reachable (cfg : Config n) {g : GState n} (hr : Reachable cfg g) :
    Inv cfg g := by
  unfold Reachable at hr
  induction hr with
  | refl => exact inv_init cfg
  | tail hab hbc ih => exact inv_step cfg hbc ih

/-! ## Claim C1: the admission bound -/

/-- Claim C1 (amended): in every reachable state of the tracking system,
for every (role, database, statement kind) whose configured limit is
`L ≥ 1`, at most `L` backends are registered with that tuple, and for
every (role, database) with `max_concurrent_tx = L ≥ 0` at most `L`
backends are registered with `in_transaction`.  The statement bound as
claimed, for every `L ≥ 0`, fails: the check
`limit_val > 0 && count >= limit_val` skips the bound when `L = 0` but
still registers the backend (see the counterexample). -/
theorem admission_bound (cfg : Config n) (g : GState n)
    (hr : Reachable cfg g) :
    (∀ r d k lim, stmtLimit (cfg.limitsOf r d) k = some lim → 1 ≤ lim →
      (stmtMatchCount g.shared r d k : Int) ≤ lim) ∧
    (∀ r d, 0 ≤ (cfg.limitsOf r d).max_concurrent_tx →
      (txMatchCount g.shared r d : Int) ≤
        (cfg.limitsOf r d).max_concurrent_tx) := by
  obtain ⟨-, -, -, -, h5, h6⟩ := inv_reachable cfg hr
  refine ⟨h5, fun r d h0 => ?_⟩
  have h := h6 r d
  rwa [max_eq_left h0] at h

/-- Claim C1, counterexample to the claimed bound for `L = 0`: with
`max_concurrent_select = 0`, one `qos_track_statement_start` call from the
startup state registers the backend without any check, reaching a state
with one matching slot — more than the limit `0`. -/
theorem admission_bound_counterexample :
    Reachable cfgZero (doStmtStart cfgZero (initGState 1) 0 CmdType.select true) ∧
    stmtLimit (cfgZero.limitsOf 1 1) CmdType.select = some 0 ∧
    ¬ ((stmtMatchCount
        (doStmtStart cfgZero (initGState 1) 0 CmdType.select true).shared
        1 1 CmdType.select : Int) ≤ 0) := by
  refine ⟨Relation.ReflTransGen.single
    (Step.stmtStart (initGState 1) 0 CmdType.select true), rfl, ?_⟩
  decide

theorem admission_bound_witness :
    (stmtMatchCount
        (doStmtStart cfgOne (initGState 1) 0 CmdType.select true).shared
        1 1 CmdType.select : Int) ≤ 2 ∧
    (txMatchCount
        (doStmtStart cfgOne (initGState 1) 0 CmdType.select true).shared
        1 1 : Int) ≤ 1 := by
  have hr : Reachable cfgOne
      (doStmtStart cfgOne (initGState 1) 0 CmdType.select true) :=
    Relation.ReflTransGen.single
      (Step.stmtStart (initGState 1) 0 CmdType.select true)
  have h := admission_bound cfgOne _ hr
  exact ⟨h.1 1 1 CmdType.select 2 rfl (by decide), h.2 1 1 (by decide)⟩

/-! ## Claim C9: rejection leaves the backend unregistered -/

lemma stmt_core_error_congr {n : Nat} {s' s : QoSSharedState n}
    (b : BackendLocal) (me : Fin n) (lv : Int) (op : CmdType)
    (hbs : s'.backend_status = s.backend_status) :
    (qos_track_statement_start_core s' b me lv op).error =
      (qos_track_statement_start_core s b me lv op).error := by
  have hpeer : peerCountStmt s' me b.role_oid b.database_oid op =
      peerCountStmt s me b.role_oid b.database_oid op := by
    unfold peerCountStmt
    rw [hbs]
  unfold qos_track_statement_start_core
  by_cases hc : 0 < lv ∧
      lv ≤ (peerCountStmt s me b.role_oid b.database_oid op : Int)
  · have hc' : 0 < lv ∧
        lv ≤ (peerCountStmt s' me b.role_oid b.database_oid op : Int) := by
      rw [hpeer]; exact hc
    rw [if_pos hc', if_pos hc]
    dsimp only
    rw [hpeer]
  · have hc' : ¬(0 < lv ∧
        lv ≤ (peerCountStmt s' me b.role_oid b.database_oid op : Int)) := by
      rw [hpeer]; exact hc
    rw [if_neg hc', if_neg hc]

lemma tx_core_error_congr {n : Nat} {s' s : QoSSharedState n}
    (b : BackendLocal) (me : Fin n) (limits : QoSLimits)
    (hbs : s'.backend_status = s.backend_status) :
    (qos_track_transaction_start_core s' b me limits).error =
      (qos_track_transaction_start_core s b me limits).error := by
  have hpeer : peerCountTx s' me b.role_oid b.database_oid =
      peerCountTx s me b.role_oid b.database_oid := by
    unfold peerCountTx
    rw [hbs]
  unfold qos_track_transaction_start_core
  by_cases hp : 0 < limits.max_concurrent_tx
  · rw [if_pos hp, if_pos hp]
    by_cases hc : limits.max_concurrent_tx ≤
        (peerCountTx s me b.role_oid b.database_oid : Int)
    · have hc' : limits.max_concurrent_tx ≤
          (peerCountTx s' me b.role_oid b.database_oid : Int) := by
        rw [hpeer]; exact hc
      rw [if_pos hc', if_pos hc]
      dsimp only
      rw [hpeer]
    · have hc' : ¬limits.max_concurrent_tx ≤
          (peerCountTx s' me b.role_oid b.database_oid : Int) := by
        rw [hpeer]; exact hc
      rw [if_neg hc', if_neg hc]
  · rw [if_neg hp, if_neg hp]

lemma stmt_start_error_congr {n : Nat} {s' s : QoSSharedState n}
    (en : Bool) (b : BackendLocal) (me : Fin n) (limits : QoSLimits)
    (op : CmdType) (hbs : s'.backend_status = s.backend_status) :
    (qos_track_statement_start en (some s') b me limits op).error =
      (qos_track_statement_start en (some s) b me limits op).error := by
  unfold qos_track_statement_start
  by_cases hg : (¬en = true ∨ b.statement_tracked = true)
  · rw [if_pos hg, if_pos hg]
  · rw [if_neg hg, if_neg hg]
    cases stmtLimit limits op with
    | none => rfl
    | some lv => exact stmt_core_error_congr b me lv op hbs

lemma tx_start_error_congr {n : Nat} {s' s : QoSSharedState n}
    (en : Bool) (b : BackendLocal) (me : Fin n) (limits : QoSLimits)
    (hbs : s'.backend_status = s.backend_status) :
    (qos_track_transaction_start en (some s') b me limits).error =
      (qos_track_transaction_start en (some s) b me limits).error := by
  unfold qos_track_transaction_start
  by_cases hg : (¬en = true ∨ b.transaction_tracked = true)
  · rw [if_pos hg, if_pos hg]
  · rw [if_neg hg, if_neg hg]
    exact tx_core_error_congr b me limits hbs

/-- Claim C9: when `qos_track_statement_start` or
`qos_track_transaction_start` rejects (raises an error), the session-local
state comes back unchanged, the shared region changes only in the
statistics counters (so the rejecting backend's own slot is untouched),
and a subsequent admission attempt on the post-rejection shared state
produces exactly the same outcome as a fresh one. -/
theorem rejection_leaves_backend_unregistered (n : Nat) (en : Bool)
    (s : QoSSharedState n) (b : BackendLocal) (me : Fin n)
    (limits : QoSLimits) (op : CmdType) (e e' : QosError) :
    ((qos_track_statement_start en (some s) b me limits op).error = some e →
      (qos_track_statement_start en (some s) b me limits op).backend = b ∧
      (qos_track_statement_start en (some s) b me limits op).shared =
        some { s with stats := bumpStmtViolation s.stats op } ∧
      ∀ en2 limits2 op2,
        (qos_track_statement_start en2
            (some { s with stats := bumpStmtViolation s.stats op })
            b me limits2 op2).error =
          (qos_track_statement_start en2 (some s) b me limits2 op2).error) ∧
    ((qos_track_transaction_start en (some s) b me limits).error = some e' →
      (qos_track_transaction_start en (some s) b me limits).backend = b ∧
      (qos_track_transaction_start en (some s) b me limits).shared =
        some { s with stats := bumpTxViolation s.stats } ∧
      ∀ en2 limits2,
        (qos_track_transaction_start en2
            (some { s with stats := bumpTxViolation s.stats })
            b me limits2).error =
          (qos_track_transaction_start en2 (some s) b me limits2).error) := by
  constructor
  · intro he
    rcases stmt_start_cases en s b me limits op with
      heq | ⟨lim, hk, hp, hge, heq⟩ | ⟨lim, hk, ht, hlt, heq⟩
    · rw [heq] at he
      exact Option.noConfusion he
    · refine ⟨?_, ?_, ?_⟩
      · rw [heq]
      · rw [heq]
      · intro en2 limits2 op2
        exact stmt_start_error_congr en2 b me limits2 op2 rfl
    · rw [heq] at he
      exact Option.noConfusion he
  · intro he
    rcases tx_start_cases en s b me limits with
      heq | ⟨hp, hge, heq⟩ | ⟨hp, ht, hlt, heq⟩
    · rw [heq] at he
      exact Option.noConfusion he
    · refine ⟨?_, ?_, ?_⟩
      · rw [heq]
      · rw [heq]
      · intro en2 limits2
        exact tx_start_error_congr en2 b me limits2 rfl
    · rw [heq] at he
      exact Option.noConfusion he

theorem rejection_leaves_backend_unregistered_witness :
    (qos_track_statement_start true (some demoShared) demoBackend 1
        demoLimits CmdType.select).backend = demoBackend ∧
    (qos_track_statement_start true (some demoShared) demoBackend 1
        demoLimits CmdType.select).shared =
      some { demoShared with
              stats := bumpStmtViolation demoShared.stats CmdType.select } ∧
    (qos_track_transaction_start true (some demoShared) demoBackend 1
        demoLimits).backend = demoBackend ∧
    (qos_track_transaction_start true (some demoShared) demoBackend 1
        demoLimits).shared =
      some { demoShared with stats := bumpTxViolation demoShared.stats } := by
  have h := rejection_leaves_backend_unregistered 2 true demoShared
    demoBackend 1 demoLimits CmdType.select
    { code := .programLimitExceeded
      message := "qos: maximum concurrent SELECT statements exceeded"
      detail := currentMaxDetail 1 1
      hint := "Wait for other queries to complete" }
    { code := .programLimitExceeded
      message := "qos: maximum concurrent transactions exceeded"
      detail := currentMaxDetail 1 1
      hint := "Wait for other transactions to complete" }
  have h1 := h.1 (by decide)
  have h2 := h.2 (by decide)
  exact ⟨h1.1, h1.2.1, h2.1, h2.2.1⟩

lemma work_mem_error_code (en : Bool) (limits : QoSLimits) (se : Option Int)
    (sess : WorkMemSession) (stmt : Option VariableSetStmt') (e : QosError)
    (he : (qos_enforce_work_mem_limit en limits se sess stmt).error = some e) :
    e.code = ErrCode.insufficientResources := by
  unfold qos_enforce_work_mem_limit at he
  by_cases h1 : en = false
  · rw [if_pos h1] at he
    exact Option.noConfusion he
  · rw [if_neg h1] at he
    by_cases h2 : limits.work_mem_limit < 0
    · rw [if_pos h2] at he
      exact Option.noConfusion he
    · rw [if_neg h2] at he
      cases stmt with
      | none =>
        unfold qos_work_mem_session_check at he
        by_cases h3 : (qos_work_mem_epoch_sync se sess).work_mem_enforced = true
        · rw [if_pos h3] at he
          exact Option.noConfusion he
        · rw [if_neg h3] at he
          by_cases h4 : limits.work_mem_limit <
              (qos_work_mem_epoch_sync se sess).work_mem * 1024
          · rw [if_pos h4] at he
            exact Option.noConfusion he
          · rw [if_neg h4] at he
            exact Option.noConfusion he
      | some st =>
        obtain ⟨onm, sv, args⟩ := st
        cases onm with
        | none => exact Option.noConfusion he
        | some nm =>
          dsimp only at he
          by_cases h3 : nm = "work_mem".toList ∧ sv = true ∧ args ≠ []
          · rw [if_pos h3] at he
            cases args with
            | nil => exact Option.noConfusion he
            | cons a rest =>
              cases a with
              | intVal i =>
                dsimp only [List.head?] at he
                by_cases h4 : limits.work_mem_limit < i * 1024
                · rw [if_pos h4] at he
                  obtain rfl := Option.some.inj he
                  rfl
                · rw [if_neg h4] at he
                  exact Option.noConfusion he
              | strVal v =>
                dsimp only [List.head?] at he
                by_cases h4 : limits.work_mem_limit < qos_parse_memory_unit v
                · rw [if_pos h4] at he
                  obtain rfl := Option.some.inj he
                  rfl
                · rw [if_neg h4] at he
                  exact Option.noConfusion he
              | otherVal =>
                dsimp only [List.head?] at he
                exact Option.noConfusion he
          · rw [if_neg h3] at he
            exact Option.noConfusion he

/-- Claim C7 (amended): the outcome of an over-limit `SET work_mem` is NOT
governed by `work_mem_error_level` — the enforcement never reads the
field (first conjunct: the result is invariant under changing it), and an
explicit over-limit request is always rejected with the
`INSUFFICIENT_RESOURCES` error while the violation counter is bumped,
even when the level is `warning` (hypothesis `hlvl`).  Only the
session-start path (`stmt == NULL`) caps silently. -/
theorem work_mem_error_level_policy (limits : QoSLimits)
    (sharedEpoch : Option Int) (sess : WorkMemSession) (i : Int)
    (rest : List AConstVal)
    (hlvl : limits.work_mem_error_level = QOS_WORK_MEM_ERROR_WARNING)
    (h0 : 0 ≤ limits.work_mem_limit)
    (hover : limits.work_mem_limit < i * 1024) :
    (∀ lvl en stmt,
      qos_enforce_work_mem_limit en
          { limits with work_mem_error_level := lvl } sharedEpoch sess stmt =
        qos_enforce_work_mem_limit en limits sharedEpoch sess stmt) ∧
    qos_enforce_work_mem_limit true limits sharedEpoch sess
        (some ⟨some "work_mem".toList, true, AConstVal.intVal i :: rest⟩) =
      ⟨sess, true, some (workMemError (i * 1024) limits.work_mem_limit)⟩ ∧
    (workMemError (i * 1024) limits.work_mem_limit).code =
      ErrCode.insufficientResources := by
  refine ⟨fun lvl en stmt => rfl, ?_, rfl⟩
  unfold qos_enforce_work_mem_limit
  rw [if_neg (by decide : ¬(true = false))]
  rw [if_neg (not_lt.mpr h0)]
  dsimp only
  rw [if_pos ⟨rfl, rfl, by simp⟩]
  dsimp only [List.head?]
  rw [if_pos hover]

theorem work_mem_error_level_policy_witness :
    demoWMLimits.work_mem_error_level = QOS_WORK_MEM_ERROR_WARNING ∧
    qos_enforce_work_mem_limit true demoWMLimits none demoWMSession
        (some ⟨some "work_mem".toList, true, [AConstVal.intVal 2048]⟩) =
      ⟨demoWMSession, true,
       some (workMemError (2048 * 1024) demoWMLimits.work_mem_limit)⟩ := by
  have h := work_mem_error_level_policy demoWMLimits none demoWMSession 2048
    [] rfl (by decide) (by decide)
  exact ⟨rfl, h.2.1⟩

/-- Claim C7, counterexample to the claimed `warning` behavior: with
`work_mem_error_level = warning`, an over-limit `SET work_mem` is still
rejected with an error, and the session's effective `work_mem` is NOT
lowered to the limit — the claimed log-and-cap path does not exist on the
SET path. -/
theorem work_mem_policy_counterexample :
    demoWMLimits.work_mem_error_level = QOS_WORK_MEM_ERROR_WARNING ∧
    (qos_enforce_work_mem_limit true demoWMLimits none demoWMSession
        (some ⟨some "work_mem".toList, true,
               [AConstVal.intVal 2048]⟩)).error ≠ none ∧
    (qos_enforce_work_mem_limit true demoWMLimits none demoWMSession
        (some ⟨some "work_mem".toList, true,
               [AConstVal.intVal 2048]⟩)).session = demoWMSession := by
  refine ⟨rfl, ?_, rfl⟩
  decide

/-! ## Claim C3: the rejection error contract -/

/-- Claim C3: a concurrency rejection of a statement or transaction raises
`PROGRAM_LIMIT_EXCEEDED` with the message naming the statement kind,
detail `Current: N, Maximum: M` (N = scanned peer count, M = the
configured limit), and a hint; the violation counter of that kind and
`rejected_queries` are bumped in the same critical section (the shared
state returned by the rejecting call is exactly the stats-bumped one);
and a work-mem rejection instead carries `INSUFFICIENT_RESOURCES`. -/
theorem rejection_error_contract (n : Nat) (en : Bool)
    (s : QoSSharedState n) (b : BackendLocal) (me : Fin n)
    (limits : QoSLimits) (op : CmdType) (e e' : QosError) :
    ((qos_track_statement_start en (some s) b me limits op).error = some e →
      e.code = ErrCode.programLimitExceeded ∧
      e.message = "qos: maximum concurrent " ++ stmtKindWord op ++
        " statements exceeded" ∧
      (∃ lim, stmtLimit limits op = some lim ∧
        e.detail = currentMaxDetail
          (peerCountStmt s me b.role_oid b.database_oid op) lim) ∧
      e.hint = "Wait for other queries to complete" ∧
      (qos_track_statement_start en (some s) b me limits op).shared =
        some { s with stats := bumpStmtViolation s.stats op }) ∧
    ((qos_track_transaction_start en (some s) b me limits).error = some e' →
      e'.code = ErrCode.programLimitExceeded ∧
      e'.message = "qos: maximum concurrent transactions exceeded" ∧
      e'.detail = currentMaxDetail
        (peerCountTx s me b.role_oid b.database_oid)
        limits.max_concurrent_tx ∧
      e'.hint = "Wait for other transactions to complete" ∧
      (qos_track_transaction_start en (some s) b me limits).shared =
        some { s with stats := bumpTxViolation s.stats }) ∧
    (∀ en2 limits2 se sess stmt2 e2,
      (qos_enforce_work_mem_limit en2 limits2 se sess stmt2).error =
        some e2 →
      e2.code = ErrCode.insufficientResources) := by
  refine ⟨?_, ?_, ?_⟩
  · intro he
    rcases stmt_start_cases en s b me limits op with
      heq | ⟨lim, hk, hp, hge, heq⟩ | ⟨lim, hk, ht, hlt, heq⟩
    · rw [heq] at he
      exact Option.noConfusion he
    · rw [heq] at he
      obtain rfl := Option.some.inj he
      refine ⟨rfl, rfl, ⟨lim, hk, rfl⟩, rfl, ?_⟩
      rw [heq]
    · rw [heq] at he
      exact Option.noConfusion he
  · intro he
    rcases tx_start_cases en s b me limits with
      heq | ⟨hp, hge, heq⟩ | ⟨hp, ht, hlt, heq⟩
    · rw [heq] at he
      exact Option.noConfusion he
    · rw [heq] at he
      obtain rfl := Option.some.inj he
      refine ⟨rfl, rfl, rfl, rfl, ?_⟩
      rw [heq]
    · rw [heq] at he
      exact Option.noConfusion he
  · intro en2 limits2 se sess stmt2 e2 he2
    exact work_mem_error_code en2 limits2 se sess stmt2 e2 he2

theorem rejection_error_contract_witness :
    ErrCode.programLimitExceeded = ErrCode.programLimitExceeded ∧
    currentMaxDetail 1 1 = currentMaxDetail
      (peerCountStmt demoShared 1 demoBackend.role_oid
        demoBackend.database_oid CmdType.select) 1 ∧
    (qos_track_transaction_start true (some demoShared) demoBackend 1
        demoLimits).shared =
      some { demoShared with stats := bumpTxViolation demoShared.stats } := by
  have h := rejection_error_contract 2 true demoShared demoBackend 1
    demoLimits CmdType.select
    { code := .programLimitExceeded
      message := "qos: maximum concurrent SELECT statements exceeded"
      detail := currentMaxDetail 1 1
      hint := "Wait for other queries to complete" }
    { code := .programLimitExceeded
      message := "qos: maximum concurrent transactions exceeded"
      detail := currentMaxDetail 1 1
      hint := "Wait for other transactions to complete" }
  have h1 := h.1 (by decide)
  have h2 := h.2.1 (by decide)
  obtain ⟨hcode, -, ⟨lim, hk, hdet⟩, -, -⟩ := h1
  refine ⟨hcode, ?_, h2.2.2.2.2⟩
  have hlim : lim = 1 := by
    have hs : some lim = some (1 : Int) := by
      rw [← hk]
      rfl
    exact Option.some.inj hs
  rw [hlim] at hdet
  exact hdet

lemma read_db_role_setting_frame (cat : List PgDbRoleSettingRow)
    (keyDb keyRole : Nat) (guardHit : Bool) :
    (qos_read_db_role_setting cat keyDb keyRole guardHit).lockMode =
      LockMode.rowExclusive ∧
    (qos_read_db_role_setting cat keyDb keyRole guardHit).rowsRead ≤ 1 ∧
    (qos_read_db_role_setting cat keyDb keyRole guardHit).scansOpened = 1 ∧
    (qos_read_db_role_setting cat keyDb keyRole guardHit).scansClosed = 1 ∧
    ((qos_read_db_role_setting cat keyDb keyRole guardHit).catalogUpdated =
        false →
      (qos_read_db_role_setting cat keyDb keyRole guardHit).catalog = cat) := by
  unfold qos_read_db_role_setting
  cases hfind :
      cat.find? (fun r => r.setdatabase == keyDb && r.setrole == keyRole) with
  | none =>
    dsimp only
    exact ⟨rfl, by decide, rfl, rfl, fun _ => rfl⟩
  | some row =>
    dsimp only
    cases hconf : row.setconfig with
    | none =>
      dsimp only
      exact ⟨rfl, by decide, rfl, rfl, fun _ => rfl⟩
    | some configs =>
      dsimp only
      refine ⟨rfl, by decide, rfl, rfl, ?_⟩
      intro hu
      rw [hu]
      simp

/-- Claim C8 (amended): each of `qos_get_role_limits` and
`qos_get_database_limits` opens exactly one scan of
`pg_db_role_setting`, reads at most one row through `systable_getnext`,
and closes the scan — but the table is opened with `RowExclusiveLock`
(a write-capable lock, not the minimal read lock `AccessShareLock`), and
the read is not mutation-free: when the embedded cleanup pass drops or
rewrites entries, the row is rewritten in place with
`CatalogTupleUpdate` (see the counterexample); the catalog is unchanged
only when no cleanup fired. -/
theorem catalog_reader_frame (cat : List PgDbRoleSettingRow)
    (roleId dbId : Nat) (guardHit : Bool) :
    ((qos_get_role_limits cat roleId guardHit).lockMode =
        LockMode.rowExclusive ∧
      (qos_get_role_limits cat roleId guardHit).rowsRead ≤ 1 ∧
      (qos_get_role_limits cat roleId guardHit).scansOpened = 1 ∧
      (qos_get_role_limits cat roleId guardHit).scansClosed = 1 ∧
      ((qos_get_role_limits cat roleId guardHit).catalogUpdated = false →
        (qos_get_role_limits cat roleId guardHit).catalog = cat)) ∧
    ((qos_get_database_limits cat dbId guardHit).lockMode =
        LockMode.rowExclusive ∧
      (qos_get_database_limits cat dbId guardHit).rowsRead ≤ 1 ∧
      (qos_get_database_limits cat dbId guardHit).scansOpened = 1 ∧
      (qos_get_database_limits cat dbId guardHit).scansClosed = 1 ∧
      ((qos_get_database_limits cat dbId guardHit).catalogUpdated = false →
        (qos_get_database_limits cat dbId guardHit).catalog = cat)) :=
  ⟨read_db_role_setting_frame cat 0 roleId guardHit,
   read_db_role_setting_frame cat dbId 0 guardHit⟩

/-- Claim C8, counterexample to read-only-ness and to the minimal lock:
reading role 10's limits from `demoCatalog` takes `RowExclusiveLock` (not
`AccessShareLock`) and rewrites the catalog — the value `64` is
normalized to `64MB` and written back through `CatalogTupleUpdate`. -/
theorem catalog_reader_counterexample :
    (qos_get_role_limits demoCatalog 10 false).lockMode ≠
      LockMode.accessShare ∧
    (qos_get_role_limits demoCatalog 10 false).catalogUpdated = true ∧
    (qos_get_role_limits demoCatalog 10 false).catalog ≠ demoCatalog := by
  decide

theorem catalog_reader_frame_witness :
    (qos_get_role_limits demoCatalog 10 false).rowsRead ≤ 1 ∧
    (qos_get_database_limits demoCatalog 3 false).catalog = demoCatalog := by
  have h := catalog_reader_frame demoCatalog 10 3 false
  exact ⟨h.1.2.1, h.2.2.2.2.2 (by decide)⟩

lemma step_settings_epoch {m : Nat} {cfg : Config m} {g g' : GState m}
    (hs : Step cfg g g') :
    g'.shared.settings_epoch = g.shared.settings_epoch := by
  cases hs with
  | stmtStart i op en =>
    rcases stmt_start_cases en g.shared (mkLocal cfg i (g.flags i)) i
        (cfg.limitsOf (cfg.role i) (cfg.db i)) op with
      heq | ⟨lim, hk, hp, hge, heq⟩ | ⟨lim, hk, ht, hlt, heq⟩ <;>
    · unfold doStmtStart applyTrack
      rw [heq]
      rfl
  | stmtEnd i en =>
    rcases stmt_end_cases en g.shared (mkLocal cfg i (g.flags i)) i with
      heq | ⟨hpid, heq⟩ | ⟨hpid, heq⟩ <;>
    · unfold doStmtEnd applyTrack
      rw [heq]
      rfl
  | txStart i en =>
    rcases tx_start_cases en g.shared (mkLocal cfg i (g.flags i)) i
        (cfg.limitsOf (cfg.role i) (cfg.db i)) with
      heq | ⟨hp, hge, heq⟩ | ⟨hp, ht, hlt, heq⟩ <;>
    · unfold doTxStart applyTrack
      rw [heq]
      rfl
  | txEnd i en =>
    rcases tx_end_cases en g.shared (mkLocal cfg i (g.flags i)) i with
      heq | ⟨hpid, heq⟩ | ⟨hpid, heq⟩ <;>
    · unfold doTxEnd applyTrack
      rw [heq]
      rfl
  | backendExit i => rfl

/-- Claim C4: the settings epoch is bumped by exactly one — hence is
monotonically non-decreasing — precisely when the governor is enabled,
the host successfully applied an `ALTER ROLE ... SET` /
`ALTER DATABASE ... SET` whose inner name starts with `qos.` or which is
`RESET ALL`; the tracking operations (which run under the same lock)
never change the epoch; and a session whose refresh observes an epoch
other than its `last_seen_epoch` invalidates its cache and recomputes
from fresh catalog reads, adopting the observed epoch. -/
theorem settings_epoch_freshness (en hostSuccess : Bool) (pt : UtilityStmt)
    (ep : Int) (c : SessionCache) (e : Int) (u d : Nat)
    (rl dl : QoSLimits) (hne : c.last_seen_epoch ≠ e) :
    (qos_ProcessUtility_epoch en pt (some ep) hostSuccess =
      (if en = true ∧ qos_bump_epoch_condition pt = true ∧
          hostSuccess = true
       then some (ep + 1) else some ep)) ∧
    (∀ ep2, qos_ProcessUtility_epoch en pt (some ep) hostSuccess = some ep2 →
      ep ≤ ep2) ∧
    (∀ (m : Nat) (cfg : Config m) (g g' : GState m), Step cfg g g' →
      g'.shared.settings_epoch = g.shared.settings_epoch) ∧
    (qos_refresh_cached_limits c (some e) u d rl dl =
      qos_refresh_recompute
        { c with limits_cached := false, last_seen_epoch := e } u d rl dl) := by
  refine ⟨?_, ?_, ?_, ?_⟩
  · unfold qos_ProcessUtility_epoch
    by_cases hcond : en = true ∧ qos_bump_epoch_condition pt = true ∧
        hostSuccess = true
    · rw [if_pos hcond, if_pos hcond]
      rfl
    · rw [if_neg hcond, if_neg hcond]
  · intro ep2 h
    unfold qos_ProcessUtility_epoch at h
    by_cases hcond : en = true ∧ qos_bump_epoch_condition pt = true ∧
        hostSuccess = true
    · rw [if_pos hcond] at h
      unfold qos_notify_settings_change at h
      have h2 := Option.some.inj h
      omega
    · rw [if_neg hcond] at h
      have h2 := Option.some.inj h
      omega
  · intro m cfg g g' hs
    exact step_settings_epoch hs
  · have hch : qos_refresh_epoch_check c (some e) =
        { c with limits_cached := false, last_seen_epoch := e } := by
      show (if c.last_seen_epoch ≠ e then
          ({ c with limits_cached := false, last_seen_epoch := e } :
            SessionCache)
        else c) = _
      rw [if_pos hne]
    unfold qos_refresh_cached_limits
    rw [hch]
    rw [if_neg]
    rintro ⟨hc, -⟩
    exact Bool.false_ne_true hc

theorem settings_epoch_freshness_witness :
    qos_ProcessUtility_epoch true
        (UtilityStmt.alterRoleSet
          (some ⟨some "qos.max_concurrent_select".toList, false⟩))
        (some 5) true = some 6 ∧
    qos_refresh_cached_limits initialSessionCache (some 0) 1 1
        allUnsetLimits allUnsetLimits =
      qos_refresh_recompute
        { initialSessionCache with limits_cached := false,
                                   last_seen_epoch := 0 } 1 1
        allUnsetLimits allUnsetLimits := by
  have h := settings_epoch_freshness true true
    (UtilityStmt.alterRoleSet
      (some ⟨some "qos.max_concurrent_select".toList, false⟩))
    5 initialSessionCache 0 1 1 allUnsetLimits allUnsetLimits (by decide)
  refine ⟨?_, h.2.2.2⟩
  rw [h.1]
  rw [if_pos ⟨rfl, by decide, rfl⟩]
  rfl

end PgQos
